import Mathlib

/-!
# plugintools: registry, dispatch pre-check, task store, shell executor, path policy

A shallow embedding of the Go sources

* `internal/core/tool.go`, `internal/core/registry.go`
* `internal/server/server.go` (`handleToolExecution`)
* `internal/tools/scheduler.go`
* `internal/tools/shell_executor.go`
* `internal/tools/file_manager.go` (`isPathAllowed`, `isSubPath`)

Go maps become association lists with unique keys, a `*Task` stored in a map
becomes the map entry itself (a write through the pointer is a write to the
entry), `error` results become `Option`/`Outcome` values, and a runtime panic
becomes the `Outcome.fault` constructor.
-/

namespace Plugintools

/-! ## Go maps with string keys -/

/-- A Go `map[string]α`, kept as an association list. -/
abbrev GoMap (α : Type) := List (String × α)

namespace GoMap

variable {α : Type}

/-- The lookup `v, exists := m[k]`. -/
def get : GoMap α → String → Option α
  | [], _ => none
  | (k', v) :: m, k => if k' = k then some v else get m k

/-- The assignment `m[k] = v`: overwrite the entry of `k`, or add one. -/
def set : GoMap α → String → α → GoMap α
  | [], k, v => [(k, v)]
  | (k', v') :: m, k, v => if k' = k then (k, v) :: m else (k', v') :: set m k v

/-- The builtin `delete(m, k)`. -/
def delete : GoMap α → String → GoMap α
  | [], _ => []
  | (k', v') :: m, k => if k' = k then delete m k else (k', v') :: delete m k

/-- The builtin `len(m)`. -/
def len (m : GoMap α) : Nat := m.length

/-- The key set of the map, in storage order. -/
def keys (m : GoMap α) : List String := m.map Prod.fst

/-- The values of the map, in storage order (`for _, v := range m`). -/
def values (m : GoMap α) : List α := m.map Prod.snd

end GoMap

/-! ## `internal/core/tool.go` -/

/-- A finite `float64`, as the number `mant * 2 ^ exp`. JSON decoding only
produces finite values. -/
structure Float64 where
  mant : Int
  exp : Int
deriving DecidableEq

/-- A value of type `interface{}` as produced by `encoding/json`. -/
inductive Value where
  | null
  | bool (b : Bool)
  | num (f : Float64)
  | str (s : String)
  | arr (xs : List Value)
  | obj (kvs : List (String × Value))

/-- A parameter bag `map[string]interface{}`. -/
abbrev Bag := GoMap Value

/-- The checked type assertion `v, ok := params[k].(string)`. -/
def Bag.getString (params : Bag) (k : String) : Option String :=
  match GoMap.get params k with
  | some (Value.str s) => some s
  | _ => none

/-- The checked type assertion `v, ok := params[k].(float64)`. -/
def Bag.getFloat64 (params : Bag) (k : String) : Option Float64 :=
  match GoMap.get params k with
  | some (Value.num f) => some f
  | _ => none

/-- ToolInfo of `tool.go`. -/
structure ToolInfo where
  ID : String
  Name : String
  Description : String
  Version : String
  Category : String
deriving DecidableEq

/-- ParamSpec of `tool.go`. -/
structure ParamSpec where
  Name : String
  Type_ : String
  Required : Bool
  Default : Option Value := none
  Description : String := ""

/-- Runtime panics that the modelled code can raise. -/
inductive Fault where
  | typeAssertion (key : String)
  | indexOutOfRange (index : Nat) (length : Nat)
deriving DecidableEq

/-- The outcome of a call returning `(result, error)`: a result, a returned
error, or a panic. -/
inductive Outcome (ε ρ : Type) where
  | ok (r : ρ)
  | fail (e : ε)
  | fault (f : Fault)
deriving DecidableEq

/-- The `Tool` interface: its three methods. `Execute` runs against a state
`σ`, returns a result in `ρ` or an error in `ε`. -/
structure Tool (σ ε ρ : Type) where
  GetInfo : ToolInfo
  Execute : Bag → σ → Outcome ε ρ × σ
  GetParams : List ParamSpec

/-! ## `internal/core/registry.go` -/

/-- The errors built by `fmt.Errorf` in `registry.go`. -/
inductive RegistryError where
  | emptyID
  | alreadyExists (id : String)
  | notFound (id : String)
deriving DecidableEq

/-- The text of a registry error. -/
def RegistryError.message : RegistryError → String
  | .emptyID => "tool ID cannot be empty"
  | .alreadyExists id => "tool with ID " ++ id ++ " already exists"
  | .notFound id => "tool with ID " ++ id ++ " not found"

/-- DefaultRegistry: the `tools` map (the mutex has no sequential content). -/
structure DefaultRegistry (σ ε ρ : Type) where
  tools : GoMap (Tool σ ε ρ)

variable {σ ε ρ : Type}

/-- NewRegistry. -/
def NewRegistry : DefaultRegistry σ ε ρ := ⟨[]⟩

/-- Register: the returned `error` and the registry afterwards. -/
def DefaultRegistry.Register (r : DefaultRegistry σ ε ρ) (tool : Tool σ ε ρ) :
    Option RegistryError × DefaultRegistry σ ε ρ :=
  let info := tool.GetInfo
  if info.ID = "" then
    (some .emptyID, r)
  else
    match GoMap.get r.tools info.ID with
    | some _ => (some (.alreadyExists info.ID), r)
    | none => (none, ⟨GoMap.set r.tools info.ID tool⟩)

/-- Get. -/
def DefaultRegistry.Get (r : DefaultRegistry σ ε ρ) (id : String) :
    Except RegistryError (Tool σ ε ρ) :=
  match GoMap.get r.tools id with
  | none => .error (.notFound id)
  | some tool => .ok tool

/-- Unregister. -/
def DefaultRegistry.Unregister (r : DefaultRegistry σ ε ρ) (id : String) :
    Option RegistryError × DefaultRegistry σ ε ρ :=
  match GoMap.get r.tools id with
  | none => (some (.notFound id), r)
  | some _ => (none, ⟨GoMap.delete r.tools id⟩)

/-- Registering the tools of a list one after another: the errors returned, in
order, and the final registry. -/
def DefaultRegistry.registerAll : DefaultRegistry σ ε ρ → List (Tool σ ε ρ) →
    List (Option RegistryError) × DefaultRegistry σ ε ρ
  | r, [] => ([], r)
  | r, t :: ts =>
    let step := r.Register t
    let rest := DefaultRegistry.registerAll step.2 ts
    (step.1 :: rest.1, rest.2)

/-- List: the tools in the iteration order of the map. -/
def DefaultRegistry.List (r : DefaultRegistry σ ε ρ) : List (Tool σ ε ρ) :=
  GoMap.values r.tools

/-! ## `internal/config/config.go` -/

/-- The `Tools.FileManager` section of `Config`. -/
structure FileManagerConfig where
  AllowedPaths : List String
  MaxFileSize : Int

/-- The `Tools.ShellExecutor` section of `Config`. -/
structure ShellExecutorConfig where
  AllowedCommands : List String
  MaxTimeout : Int

/-- The `Tools.Scheduler` section of `Config`. -/
structure SchedulerConfig where
  MaxTasks : Int
  EnableNotifications : Bool

/-- The `Tools` section of `Config`. -/
structure ToolsConfig where
  FileManager : FileManagerConfig
  ShellExecutor : ShellExecutorConfig
  Scheduler : SchedulerConfig

/-- Config, what `config.Get()` returns once the configuration is loaded (the
`Server` and `Security` sections are not read by the tools). -/
structure Config where
  Tools : ToolsConfig

/-! ## `internal/server/server.go` -/

/-- What `handleToolExecution` answers: `http.Error` with a text and a status,
`http.Error` with the text of the error returned by the tool, the JSON
encoding of the result, or the panic of the tool leaving the handler. -/
inductive Response (ε ρ : Type) where
  | httpError (msg : String) (status : Nat)
  | toolError (e : ε) (status : Nat)
  | json (data : ρ)
  | panicked (f : Fault)

/-- The loop `for _, param := range tool.GetParams()` of
`handleToolExecution`: the name of the first required parameter that is not a
key of the bag, if there is one. -/
def missingRequired : List ParamSpec → Bag → Option String
  | [], _ => none
  | param :: rest, params =>
    if param.Required then
      match GoMap.get params param.Name with
      | none => some param.Name
      | some _ => missingRequired rest params
    else
      missingRequired rest params

/-- The answer to the `(result, err)` pair `tool.Execute` returned, or to its
panic. -/
def Response.ofOutcome : Outcome ε ρ → Response ε ρ
  | .fail err => .toolError err 500
  | .fault f => .panicked f
  | .ok result => .json result

/-- handleToolExecution, on the outcome of decoding the request body (`none`
when the body is not JSON) and the state the tool runs against. -/
def handleToolExecution (tool : Tool σ ε ρ) (body : Option Bag) (s : σ) :
    Response ε ρ × σ :=
  match body with
  | none => (.httpError "Invalid request body" 400, s)
  | some params =>
    match missingRequired tool.GetParams params with
    | some name => (.httpError ("Missing required parameter: " ++ name) 400, s)
    | none =>
      let r := tool.Execute params s
      (Response.ofOutcome r.1, r.2)

/-- A tool that behaves as `tool` and also records, in order, every bag its
`Execute` is called with. -/
def recording (tool : Tool σ ε ρ) : Tool (σ × List Bag) ε ρ where
  GetInfo := tool.GetInfo
  GetParams := tool.GetParams
  Execute := fun params st =>
    let r := tool.Execute params st.1
    (r.1, (r.2, st.2 ++ [params]))

/-! ## `internal/tools/scheduler.go` -/

/-- A `time.Time`, as nanoseconds relative to the Unix epoch. -/
abbrev Time := Int

/-- The zero `time.Time` (January 1, year 1, 00:00 UTC). -/
def zeroTime : Time := -62135596800000000000

/-- Task. -/
structure Task where
  ID : String
  Title : String
  Description : String
  DueTime : Time
  Status : String
  CreatedAt : Time
  UpdatedAt : Time
deriving DecidableEq

/-- What the scheduler reads from outside itself: the loaded configuration,
the clock (`now k` is the reading of the call number `k` of `time.Now()`), and
`time.Parse(time.RFC3339, ·)`. -/
structure SchedulerEnv where
  cfg : Config
  now : Nat → Time
  parse : String → Option Time

/-- Scheduler: the `tasks` map, the number of clock readings taken so far, and
the notifications handed to `go s.sendNotification`, in order. -/
structure Scheduler where
  tasks : GoMap Task
  clock : Nat
  notifications : List (String × Task)
deriving DecidableEq

/-- NewScheduler. -/
def NewScheduler : Scheduler := ⟨[], 0, []⟩

/-- The errors built by `fmt.Errorf` in `scheduler.go`. -/
inductive SchedulerError where
  | operationRequired
  | unsupportedOperation (operation : String)
  | maxTasks (limit : Int)
  | titleRequired
  | invalidDueTime (input : String)
  | taskIDRequired (operation : String)
  | taskNotFound (taskID : String)
deriving DecidableEq

/-- The text of a scheduler error (the text of the `time.Parse` error is
replaced by the input it rejected). -/
def SchedulerError.message : SchedulerError → String
  | .operationRequired => "operation parameter is required"
  | .unsupportedOperation op => "unsupported operation: " ++ op
  | .maxTasks n => "maximum number of tasks (" ++ toString n ++ ") reached"
  | .titleRequired => "title is required for create operation"
  | .invalidDueTime d => "invalid due_time format: " ++ d
  | .taskIDRequired op => "task_id is required for " ++ op ++ " operation"
  | .taskNotFound id => "task not found: " ++ id

/-- What `Scheduler.Execute` returns as its `interface{}` result. -/
inductive SchedulerResult where
  | task (t : Task)
  | tasks (ts : List Task)
  | deleted (success : Bool) (message : String)
deriving DecidableEq

/-- The identity `fmt.Sprintf("task_%d", t.UnixNano())`. -/
def taskID (reading : Time) : String := "task_" ++ toString reading

/-- The tail of `createTask` from `s.mu.Lock()` on: insert, notify, return. -/
def Scheduler.insertTask (env : SchedulerEnv) (s : Scheduler) (task : Task) :
    Outcome SchedulerError Task × Scheduler :=
  let tasks := GoMap.set s.tasks task.ID task
  let notifications :=
    if env.cfg.Tools.Scheduler.EnableNotifications then
      s.notifications ++ [("task_created", task)]
    else s.notifications
  (.ok task, { s with tasks := tasks, notifications := notifications })

/-- createTask. -/
def Scheduler.createTask (env : SchedulerEnv) (s : Scheduler) (params : Bag) :
    Outcome SchedulerError Task × Scheduler :=
  let cfg := env.cfg
  if (GoMap.len s.tasks : Int) ≥ cfg.Tools.Scheduler.MaxTasks then
    (.fail (.maxTasks cfg.Tools.Scheduler.MaxTasks), s)
  else
    match params.getString "title" with
    | none => (.fail .titleRequired, s)
    | some title =>
      if title = "" then (.fail .titleRequired, s)
      else
        let id := taskID (env.now s.clock)
        match GoMap.get params "description" with
        | some (.str description) =>
          let task : Task :=
            { ID := id
              Title := title
              Description := description
              DueTime := zeroTime
              Status := "pending"
              CreatedAt := env.now (s.clock + 1)
              UpdatedAt := env.now (s.clock + 2) }
          let s1 := { s with clock := s.clock + 3 }
          match params.getString "due_time" with
          | some dueTime =>
            match env.parse dueTime with
            | none => (.fail (.invalidDueTime dueTime), s1)
            | some t => Scheduler.insertTask env s1 { task with DueTime := t }
          | none => Scheduler.insertTask env s1 task
        | _ => (.fault (.typeAssertion "description"), { s with clock := s.clock + 1 })

/-- The tail of `updateTask` from `task.UpdatedAt = time.Now()` on. -/
def Scheduler.finishUpdate (env : SchedulerEnv) (s : Scheduler) (taskID : String)
    (task : Task) : Outcome SchedulerError Task × Scheduler :=
  let task := { task with UpdatedAt := env.now s.clock }
  let notifications :=
    if env.cfg.Tools.Scheduler.EnableNotifications then
      s.notifications ++ [("task_updated", task)]
    else s.notifications
  (.ok task,
    { tasks := GoMap.set s.tasks taskID task
      clock := s.clock + 1
      notifications := notifications })

/-- The three conditional writes of `updateTask` to the title, the description
and the status, in that order. -/
def writeFields (params : Bag) (task : Task) : Task :=
  let task :=
    match params.getString "title" with
    | some title => if title ≠ "" then { task with Title := title } else task
    | none => task
  let task :=
    match params.getString "description" with
    | some desc => { task with Description := desc }
    | none => task
  match params.getString "status" with
  | some status => if status ≠ "" then { task with Status := status } else task
  | none => task

/-- updateTask. The writes `task.Title = …` go through the pointer held by the
map, so they are writes to the entry of `taskID`, and they are made before the
due time is parsed. -/
def Scheduler.updateTask (env : SchedulerEnv) (s : Scheduler) (params : Bag) :
    Outcome SchedulerError Task × Scheduler :=
  match params.getString "task_id" with
  | none => (.fail (.taskIDRequired "update"), s)
  | some taskID =>
    if taskID = "" then (.fail (.taskIDRequired "update"), s)
    else
      match GoMap.get s.tasks taskID with
      | none => (.fail (.taskNotFound taskID), s)
      | some task =>
        let task := writeFields params task
        match params.getString "due_time" with
        | some dueTime =>
          match env.parse dueTime with
          | none =>
            (.fail (.invalidDueTime dueTime), { s with tasks := GoMap.set s.tasks taskID task })
          | some t => Scheduler.finishUpdate env s taskID { task with DueTime := t }
        | none => Scheduler.finishUpdate env s taskID task

/-- deleteTask. -/
def Scheduler.deleteTask (env : SchedulerEnv) (s : Scheduler) (params : Bag) :
    Outcome SchedulerError SchedulerResult × Scheduler :=
  match params.getString "task_id" with
  | none => (.fail (.taskIDRequired "delete"), s)
  | some taskID =>
    if taskID = "" then (.fail (.taskIDRequired "delete"), s)
    else
      match GoMap.get s.tasks taskID with
      | none => (.fail (.taskNotFound taskID), s)
      | some task =>
        let notifications :=
          if env.cfg.Tools.Scheduler.EnableNotifications then
            s.notifications ++ [("task_deleted", task)]
          else s.notifications
        (.ok (.deleted true ("Task " ++ taskID ++ " deleted")),
          { s with tasks := GoMap.delete s.tasks taskID, notifications := notifications })

/-- listTasks. -/
def Scheduler.listTasks (s : Scheduler) : Outcome SchedulerError SchedulerResult × Scheduler :=
  (.ok (.tasks (GoMap.values s.tasks)), s)

/-- getTask. -/
def Scheduler.getTask (s : Scheduler) (params : Bag) :
    Outcome SchedulerError Task × Scheduler :=
  match params.getString "task_id" with
  | none => (.fail (.taskIDRequired "get"), s)
  | some taskID =>
    if taskID = "" then (.fail (.taskIDRequired "get"), s)
    else
      match GoMap.get s.tasks taskID with
      | none => (.fail (.taskNotFound taskID), s)
      | some task => (.ok task, s)

/-- The conversion of a `(*Task, error)` pair to `(interface{}, error)`. -/
def asResult (r : Outcome SchedulerError Task × Scheduler) :
    Outcome SchedulerError SchedulerResult × Scheduler :=
  match r with
  | (.ok t, s) => (.ok (.task t), s)
  | (.fail e, s) => (.fail e, s)
  | (.fault f, s) => (.fault f, s)

/-- Execute of the scheduler. -/
def Scheduler.Execute (env : SchedulerEnv) (s : Scheduler) (params : Bag) :
    Outcome SchedulerError SchedulerResult × Scheduler :=
  match params.getString "operation" with
  | none => (.fail .operationRequired, s)
  | some operation =>
    if operation = "create" then asResult (s.createTask env params)
    else if operation = "update" then asResult (s.updateTask env params)
    else if operation = "delete" then s.deleteTask env params
    else if operation = "list" then s.listTasks
    else if operation = "get" then asResult (s.getTask params)
    else (.fail (.unsupportedOperation operation), s)

/-- GetInfo of the scheduler. -/
def Scheduler.GetInfo : ToolInfo where
  ID := "scheduler"
  Name := "Task Scheduler"
  Description := "Manage tasks and schedules"
  Version := "1.0.0"
  Category := "Productivity"

/-- GetParams of the scheduler. -/
def Scheduler.GetParams : List ParamSpec :=
  [ { Name := "operation", Type_ := "string", Required := true,
      Description := "Operation to perform (create, update, delete, list, get)" },
    { Name := "task_id", Type_ := "string", Required := false,
      Description := "Task ID for update, delete, get operations" },
    { Name := "title", Type_ := "string", Required := false,
      Description := "Task title for create/update operations" },
    { Name := "description", Type_ := "string", Required := false,
      Description := "Task description for create/update operations" },
    { Name := "due_time", Type_ := "string", Required := false,
      Description := "Task due time in RFC3339 format" },
    { Name := "status", Type_ := "string", Required := false,
      Description := "Task status (pending, completed, cancelled)" } ]

/-- The scheduler as a `Tool`. -/
def Scheduler.tool (env : SchedulerEnv) : Tool Scheduler SchedulerError SchedulerResult where
  GetInfo := Scheduler.GetInfo
  Execute := fun params s => s.Execute env params
  GetParams := Scheduler.GetParams

/-- Whether a bag holds a non-empty string under `title` and a string under
`description`. -/
def hasTitleAndDescription (params : Bag) : Bool :=
  match params.getString "title", params.getString "description" with
  | some title, some _ => title ≠ ""
  | _, _ => false

/-- Whether, moreover, the bag holds no string under `due_time` or one that
`time.Parse` accepts. -/
def isAcceptableCreate (env : SchedulerEnv) (params : Bag) : Bool :=
  hasTitleAndDescription params &&
    match params.getString "due_time" with
    | some dueTime => (env.parse dueTime).isSome
    | none => true

/-- The number a decimal numeral stands for. -/
def numeralValue (cs : List Char) : Nat :=
  cs.foldl (fun a c => a * 10 + (c.toNat - 48)) 0

/-! ## `internal/tools/shell_executor.go` -/

/-- The white space of `unicode.IsSpace`, which `strings.Fields` splits on. -/
def isSpace (c : Char) : Bool :=
  let n := c.toNat
  n = 9 || n = 10 || n = 11 || n = 12 || n = 13 || n = 32 || n = 0x85 || n = 0xA0 ||
  n = 0x1680 || (0x2000 ≤ n && n ≤ 0x200A) || n = 0x2028 || n = 0x2029 || n = 0x202F ||
  n = 0x205F || n = 0x3000

/-- The scan of `strings.Fields`: `cur` is the field being read, reversed. -/
def fieldsAux : List Char → List Char → List String
  | [], cur => if cur = [] then [] else [String.mk cur.reverse]
  | c :: cs, cur =>
    if isSpace c then
      if cur = [] then fieldsAux cs [] else String.mk cur.reverse :: fieldsAux cs []
    else fieldsAux cs (c :: cur)

/-- The library function `strings.Fields`: the maximal runs of characters that
are not white space. -/
def Fields (s : String) : List String := fieldsAux s.data []

/-- The errors built by `fmt.Errorf` in `shell_executor.go`, up to the spawn. -/
inductive ShellError where
  | commandRequired
  | commandNotAllowed (command : String)
  | timeoutExceeds (limit : Int)
deriving DecidableEq

/-- The text of a shell executor error. -/
def ShellError.message : ShellError → String
  | .commandRequired => "command parameter is required"
  | .commandNotAllowed c => "command not allowed: " ++ c
  | .timeoutExceeds n =>
    "timeout exceeds maximum allowed value of " ++ toString n ++ " seconds"

/-- The loop of `isCommandAllowed` over the allow-list. -/
def allowedLoop (cmdName : String) : List String → Bool
  | [] => false
  | allowed :: rest => if cmdName = allowed then true else allowedLoop cmdName rest

/-- isCommandAllowed: `strings.Fields(command)[0]` panics when there is no
field. -/
def isCommandAllowed (cfg : Config) (command : String) : Except Fault Bool :=
  match Fields command with
  | [] => .error (.indexOutOfRange 0 0)
  | cmdName :: _ => .ok (allowedLoop cmdName cfg.Tools.ShellExecutor.AllowedCommands)

/-- The integer part of a `float64`, rounded toward zero. -/
def Float64.trunc (f : Float64) : Int :=
  if 0 ≤ f.exp then f.mant * 2 ^ f.exp.toNat else Int.tdiv f.mant (2 ^ (-f.exp).toNat)

/-- The conversion `int(t)` of a `float64`, with `int` of 64 bits: the integer
part when it fits; otherwise the result depends on the platform, and is the
value `overflow t`. -/
def intOfFloat64 (overflow : Float64 → Int) (t : Float64) : Int :=
  let z := t.trunc
  if -(2 : Int) ^ 63 ≤ z ∧ z < (2 : Int) ^ 63 then z else (overflow t + 2 ^ 63) % 2 ^ 64 - 2 ^ 63

/-- What the shell executor reads from outside itself: the loaded
configuration and the platform's out-of-range `float64` conversion. -/
structure ShellEnv where
  cfg : Config
  overflow : Float64 → Int

/-- The process `exec.Command(parts[0], parts[1:]...)` that `Execute` starts,
with its directory and the timeout it is raced against. -/
structure Spawn where
  name : String
  args : List String
  dir : String
  timeout : Int
deriving DecidableEq

/-- The timeout `Execute` works with: 30, or `int(t)` when the bag holds a
`float64` under `timeout`. -/
def effectiveTimeout (env : ShellEnv) (params : Bag) : Int :=
  match params.getFloat64 "timeout" with
  | some t => intOfFloat64 env.overflow t
  | none => 30

/-- Execute of the shell executor up to `cmd.Start()`: the returned error, the
panic, or the process it goes on to start. -/
def ShellExecutor.Execute (env : ShellEnv) (params : Bag) : Outcome ShellError Spawn :=
  match params.getString "command" with
  | none => .fail .commandRequired
  | some command =>
    if command = "" then .fail .commandRequired
    else
      match isCommandAllowed env.cfg command with
      | .error f => .fault f
      | .ok false => .fail (.commandNotAllowed command)
      | .ok true =>
        let timeout := effectiveTimeout env params
        let cfg := env.cfg
        if timeout > cfg.Tools.ShellExecutor.MaxTimeout then
          .fail (.timeoutExceeds cfg.Tools.ShellExecutor.MaxTimeout)
        else
          let workingDir := (params.getString "working_dir").getD ""
          match Fields command with
          | [] => .fault (.indexOutOfRange 0 0)
          | name :: args => .ok { name := name, args := args, dir := workingDir, timeout := timeout }

/-! ## `internal/tools/file_manager.go`

The functions of `path/filepath` are library code; they are modelled for Unix
paths, by path elements. -/

/-- The scan splitting a path at every `/`: `cur` is the element being read,
reversed. -/
def splitAux : List Char → List Char → List String
  | [], cur => [String.mk cur.reverse]
  | c :: cs, cur =>
    if c = '/' then String.mk cur.reverse :: splitAux cs [] else splitAux cs (c :: cur)

/-- The non-empty elements of a path. -/
def elements (path : String) : List String :=
  (splitAux path.data []).filter (fun e => e ≠ "")

/-- Whether the characters `p` begin the characters `cs`. -/
def beginsWith : List Char → List Char → Bool
  | _, [] => true
  | [], _ :: _ => false
  | c :: cs, p :: ps => c = p && beginsWith cs ps

/-- The library function `strings.HasPrefix`. -/
def HasPrefix (s p : String) : Bool := beginsWith s.data p.data

/-- The library function `filepath.IsAbs` on Unix. -/
def IsAbs (path : String) : Bool := HasPrefix path "/"

/-- One element of the loop of `filepath.Clean`; `out` holds the elements
written so far, the last one first. An empty or `.` element is skipped; `..`
removes the last element written when there is one that is not `..`, is
dropped at the root, and is kept at the start of a relative path. -/
def cleanStep (rooted : Bool) (out : List String) (elem : String) : List String :=
  if elem = "" ∨ elem = "." then out
  else if elem = ".." then
    match out with
    | top :: rest =>
      if top ≠ ".." then rest else if rooted then out else ".." :: out
    | [] => if rooted then [] else [".."]
  else elem :: out

/-- The elements `filepath.Clean` keeps, in order. -/
def cleanElements (rooted : Bool) (path : String) : List String :=
  ((splitAux path.data []).foldl (cleanStep rooted) []).reverse

/-- The library function `filepath.Clean` on Unix. -/
def Clean (path : String) : String :=
  if path = "" then "."
  else
    let rooted := IsAbs path
    let body := String.intercalate "/" (cleanElements rooted path)
    if rooted then "/" ++ body else if body = "" then "." else body

/-- The library function `filepath.Join` for two elements. -/
def Join (a b : String) : String :=
  if a ≠ "" then Clean (a ++ "/" ++ b) else if b ≠ "" then Clean b else ""

/-- The library function `filepath.Abs` on Unix; `wd` is the result of
`os.Getwd()`, `none` when it fails. -/
def Abs (wd : Option String) (path : String) : Option String :=
  if IsAbs path then some (Clean path)
  else
    match wd with
    | none => none
    | some dir => some (Join dir path)

/-- The loop of `filepath.Rel` that skips the elements the two paths share. -/
def dropShared : List String → List String → List String × List String
  | b :: bs, t :: ts => if b = t then dropShared bs ts else (b :: bs, t :: ts)
  | bs, ts => (bs, ts)

/-- The library function `filepath.Rel` on Unix, `none` for its error: the
target relative to the base, both cleaned, by path elements. A target `.` is
the empty path; there is no answer when one path is absolute and the other is
not, nor when the base has a `..` element that the target does not share. -/
def Rel (basepath targpath : String) : Option String :=
  let base := Clean basepath
  let targ := Clean targpath
  if targ = base then some "."
  else
    let base := if base = "." then "" else base
    let targ := if targ = "." then "" else targ
    if IsAbs base ≠ IsAbs targ then none
    else
      match dropShared (elements base) (elements targ) with
      | (b :: bs, ts) =>
        if b = ".." then none
        else some (String.intercalate "/" (List.replicate (bs.length + 1) ".." ++ ts))
      | ([], ts) => some (String.intercalate "/" ts)

/-- isSubPath. -/
def isSubPath (parentPath childPath : String) : Bool :=
  match Rel parentPath childPath with
  | none => false
  | some rel => !HasPrefix rel ".."

/-- The loop of `isPathAllowed` over the allow-listed paths. -/
def allowedPathLoop (wd : Option String) (absPath : String) : List String → Bool
  | [] => false
  | allowedPath :: rest =>
    match Abs wd allowedPath with
    | none => allowedPathLoop wd absPath rest
    | some allowedAbs =>
      if isSubPath allowedAbs absPath then true else allowedPathLoop wd absPath rest

/-- isPathAllowed, with the loaded configuration and the working directory of
the process. -/
def isPathAllowed (cfg : Config) (wd : Option String) (path : String) : Bool :=
  match Abs wd path with
  | none => false
  | some absPath => allowedPathLoop wd absPath cfg.Tools.FileManager.AllowedPaths

/-- The elements of the absolute form of a path with its `.` and `..` elements
resolved; `none` when the path is relative and there is no working
directory. -/
def resolvedElements (wd : Option String) (path : String) : Option (List String) :=
  if IsAbs path then some (cleanElements true path)
  else
    match wd with
    | none => none
    | some dir => some (cleanElements true (dir ++ "/" ++ path))

/-- Whether the elements `root` begin the elements `p`: `p` is `root` or lies
below it. -/
def isAncestorOrSelf : List String → List String → Bool
  | [], _ => true
  | _ :: _, [] => false
  | r :: rs, e :: es => r = e && isAncestorOrSelf rs es

/-- Containment as the specification words it: the resolved absolute form of
the path is equal to, or a descendant of, the resolved absolute form of some
allow-listed directory. -/
def specPathAllowed (cfg : Config) (wd : Option String) (path : String) : Bool :=
  match resolvedElements wd path with
  | none => false
  | some p =>
    cfg.Tools.FileManager.AllowedPaths.any fun allowedPath =>
      match resolvedElements wd allowedPath with
      | none => false
      | some root => isAncestorOrSelf root p

/-! ## A model of `time.Parse(time.RFC3339, ·)`

Library code as well. As the library does, the model reads a year of four
digits, a month, a day, minutes and seconds of two digits, an hour of one or
two digits, an optional fraction of a second after `.` or `,`, and `Z` or an
offset `±hh:mm` of at most 24 hours and 60 minutes; nothing may follow. -/

/-- The value of a decimal digit. -/
def digitValue (c : Char) : Option Nat :=
  if 48 ≤ c.toNat ∧ c.toNat ≤ 57 then some (c.toNat - 48) else none

/-- Read exactly `k` decimal digits. -/
def readDigits : Nat → Nat → List Char → Option (Nat × List Char)
  | 0, acc, cs => some (acc, cs)
  | _ + 1, _, [] => none
  | k + 1, acc, c :: cs =>
    match digitValue c with
    | none => none
    | some d => readDigits k (acc * 10 + d) cs

/-- Read the character `c`. -/
def readChar (c : Char) : List Char → Option (List Char)
  | [] => none
  | x :: xs => if x = c then some xs else none

/-- Read the digits of a fraction of a second: the nanoseconds they stand for
(`scale` is the weight of the next digit) and what follows them. -/
def readFraction : List Char → Nat → Nat → Nat × List Char
  | [], _, acc => (acc, [])
  | c :: cs, scale, acc =>
    match digitValue c with
    | none => (acc, c :: cs)
    | some d => readFraction cs (scale / 10) (acc + d * scale)

/-- Whether `y` is a leap year. -/
def isLeap (y : Nat) : Bool := y % 4 = 0 && (y % 100 ≠ 0 || y % 400 = 0)

/-- The number of days of month `m` of year `y`. -/
def daysIn (y m : Nat) : Nat :=
  if m = 2 then (if isLeap y then 29 else 28)
  else if m = 4 ∨ m = 6 ∨ m = 9 ∨ m = 11 then 30 else 31

/-- The number of days from 1970-01-01 to the civil date `y-m-d`. -/
def daysFromCivil (y m d : Int) : Int :=
  let y := if m ≤ 2 then y - 1 else y
  let era := y / 400
  let yoe := y - era * 400
  let mp := (m + 9) % 12
  let doy := (153 * mp + 2) / 5 + d - 1
  let doe := yoe * 365 + yoe / 4 - yoe / 100 + doy
  era * 146097 + doe - 719468

/-- Read the zone: `Z`, or `+hh:mm` or `-hh:mm`; the offset in seconds. The
library accepts an offset of 24 hours and one of 60 minutes. -/
def readZone : List Char → Option Int
  | [c] => if c = 'Z' then some 0 else none
  | sign :: rest =>
    if sign = '+' ∨ sign = '-' then
      match readDigits 2 0 rest with
      | none => none
      | some (hh, rest) =>
        match readChar ':' rest with
        | none => none
        | some rest =>
          match readDigits 2 0 rest with
          | some (mm, []) =>
            if hh ≤ 24 ∧ mm ≤ 60 then
              some ((if sign = '-' then -1 else 1) * ((hh : Int) * 3600 + (mm : Int) * 60))
            else none
          | _ => none
    else none
  | [] => none

/-- The library's `getnum`: a number of two digits, or of one digit when the
field is not of fixed width and no second digit follows. -/
def readNumber (fixed : Bool) : List Char → Option (Nat × List Char)
  | [] => none
  | a :: rest =>
    match digitValue a with
    | none => none
    | some x =>
      match rest with
      | [] => if fixed then none else some (x, [])
      | b :: rest' =>
        match digitValue b with
        | some y => some (10 * x + y, rest')
        | none => if fixed then none else some (x, b :: rest')

/-- The width of a field of the layout: four digits (the year), two digits,
or one or two digits (the hour). -/
inductive FieldWidth where
  | four
  | two
  | oneOrTwo
deriving DecidableEq

/-- Read one field of the given width. -/
def readField : FieldWidth → List Char → Option (Nat × List Char)
  | .four, cs => readDigits 4 0 cs
  | .two, cs => readNumber true cs
  | .oneOrTwo, cs => readNumber false cs

/-- Read the fields of a layout one after another: each is a number of the
given width followed by the given separator, if any. -/
def readFields : List (FieldWidth × Option Char) → List Char → Option (List Nat × List Char)
  | [], cs => some ([], cs)
  | (width, sep) :: layout, cs =>
    match readField width cs with
    | none => none
    | some (v, cs) =>
      match (match sep with | none => some cs | some c => readChar c cs) with
      | none => none
      | some cs =>
        match readFields layout cs with
        | none => none
        | some (vs, cs) => some (v :: vs, cs)

/-- The fields of `2006-01-02T15:04:05`. -/
def rfc3339Layout : List (FieldWidth × Option Char) :=
  [(.four, some '-'), (.two, some '-'), (.two, some 'T'), (.oneOrTwo, some ':'),
   (.two, some ':'), (.two, none)]

/-- The fraction of a second that may follow the seconds, after `.` or `,`:
its nanoseconds and what follows it. -/
def readOptionalFraction : List Char → Nat × List Char
  | p :: c :: rest =>
    if (p = '.' ∨ p = ',') ∧ (digitValue c).isSome then readFraction (c :: rest) 100000000 0
    else (0, p :: c :: rest)
  | cs => (0, cs)

/-- The instant of a civil date and time of day at an offset from UTC, when
the fields are in range. -/
def instantOf (y m d hh mm ss nanos : Nat) (offset : Int) : Option Time :=
  if 1 ≤ m ∧ m ≤ 12 ∧ 1 ≤ d ∧ d ≤ daysIn y m ∧ hh < 24 ∧ mm < 60 ∧ ss < 60 then
    some (((daysFromCivil y m d * 86400 + hh * 3600 + mm * 60 + ss) - offset) * 1000000000
      + nanos)
  else none

/-- The model of `time.Parse(time.RFC3339, s)`, `none` for its error. -/
def parseRFC3339 (s : String) : Option Time :=
  match readFields rfc3339Layout s.data with
  | some ([y, m, d, hh, mm, ss], cs) =>
    match readZone (readOptionalFraction cs).2 with
    | none => none
    | some offset => instantOf y m d hh mm ss (readOptionalFraction cs).1 offset
  | _ => none

/-! ## Operations as steps between lock acquisitions

`createTask` takes the lock of the store twice: shared, for the capacity check
(`s.mu.RLock()` to `s.mu.RUnlock()`), and exclusive, for the insert
(`s.mu.Lock()` to `s.mu.Unlock()`). `updateTask` and `deleteTask` take the
exclusive lock once and release it when they return
(`defer s.mu.Unlock()`). -/

/-- What an operation does to the lock of the store, to the store, and to the
notification goroutines: `RLock`, `RUnlock`, `Lock`, `Unlock`, a write to the
map or to a task held by it, and `go s.sendNotification(eventType, task)`. -/
inductive LockEvent where
  | rlock
  | runlock
  | lock
  | unlock
  | mutate
  | dispatch (eventType : String) (task : Task)
deriving DecidableEq

/-- createTask from the title check on: what follows the release of the
shared lock when the capacity check has passed. -/
def Scheduler.createChecked (env : SchedulerEnv) (s : Scheduler) (params : Bag) :
    Outcome SchedulerError Task × Scheduler :=
  match params.getString "title" with
  | none => (.fail .titleRequired, s)
  | some title =>
    if title = "" then (.fail .titleRequired, s)
    else
      let id := taskID (env.now s.clock)
      match GoMap.get params "description" with
      | some (.str description) =>
        let task : Task :=
          { ID := id
            Title := title
            Description := description
            DueTime := zeroTime
            Status := "pending"
            CreatedAt := env.now (s.clock + 1)
            UpdatedAt := env.now (s.clock + 2) }
        let s1 := { s with clock := s.clock + 3 }
        match params.getString "due_time" with
        | some dueTime =>
          match env.parse dueTime with
          | none => (.fail (.invalidDueTime dueTime), s1)
          | some t => Scheduler.insertTask env s1 { task with DueTime := t }
        | none => Scheduler.insertTask env s1 task
      | _ => (.fault (.typeAssertion "description"), { s with clock := s.clock + 1 })

/-- The events of createTask after the capacity check. Every return before the
insert comes before `s.mu.Lock()`; on the way to `return task, nil` the task
is inserted between `Lock` and `Unlock`, and the notification goroutine is
started after the `Unlock`, when notifications are enabled. -/
def Scheduler.createCheckedEvents (env : SchedulerEnv) (s : Scheduler) (params : Bag) :
    List LockEvent :=
  match (s.createChecked env params).1 with
  | .ok task =>
    [.lock, .mutate, .unlock] ++
      if env.cfg.Tools.Scheduler.EnableNotifications then [.dispatch "task_created" task]
      else []
  | _ => []

/-- The writes of `writeFields`, one event for each assignment made. -/
def writeEvents (params : Bag) : List LockEvent :=
  (match params.getString "title" with
    | some title => if title ≠ "" then [.mutate] else []
    | none => []) ++
  (match params.getString "description" with
    | some _ => [.mutate]
    | none => []) ++
  (match params.getString "status" with
    | some status => if status ≠ "" then [.mutate] else []
    | none => [])

/-- The events of updateTask. The `task_id` check comes before `s.mu.Lock()`;
every later return runs the deferred `s.mu.Unlock()`, so the notification
goroutine is started before the lock is released. -/
def Scheduler.updateEvents (env : SchedulerEnv) (s : Scheduler) (params : Bag) :
    List LockEvent :=
  match params.getString "task_id" with
  | none => []
  | some taskID =>
    if taskID = "" then []
    else
      match GoMap.get s.tasks taskID with
      | none => [.lock, .unlock]
      | some task =>
        let task := writeFields params task
        let finish (task : Task) : List LockEvent :=
          [.mutate] ++
            (if env.cfg.Tools.Scheduler.EnableNotifications then
              [.dispatch "task_updated" { task with UpdatedAt := env.now s.clock }]
            else []) ++ [.unlock]
        match params.getString "due_time" with
        | some dueTime =>
          match env.parse dueTime with
          | none => [.lock] ++ writeEvents params ++ [.unlock]
          | some t =>
            [.lock] ++ writeEvents params ++ [.mutate] ++ finish { task with DueTime := t }
        | none => [.lock] ++ writeEvents params ++ finish task

/-- The events of deleteTask, with the deferred `s.mu.Unlock()` last. -/
def Scheduler.deleteEvents (env : SchedulerEnv) (s : Scheduler) (params : Bag) :
    List LockEvent :=
  match params.getString "task_id" with
  | none => []
  | some taskID =>
    if taskID = "" then []
    else
      match GoMap.get s.tasks taskID with
      | none => [.lock, .unlock]
      | some task =>
        [.lock, .mutate] ++
          (if env.cfg.Tools.Scheduler.EnableNotifications then
            [.dispatch "task_deleted" task]
          else []) ++ [.unlock]

/-- An operation in progress on one goroutine: a `createTask` that has not
taken the shared lock yet, a `createTask` that has passed the capacity check
and released the shared lock, an `updateTask` or a `deleteTask` that has not
taken the exclusive lock yet, or an operation that has returned. -/
inductive Thread where
  | create (params : Bag)
  | createChecked (params : Bag)
  | update (params : Bag)
  | delete (params : Bag)
  | finished (result : Outcome SchedulerError SchedulerResult)

/-- Where an operation in progress stands. -/
inductive Phase where
  | start
  | checked
  | finished
deriving DecidableEq

/-- The phase of an operation in progress. -/
def Thread.phase : Thread → Phase
  | .create _ => .start
  | .createChecked _ => .checked
  | .update _ => .start
  | .delete _ => .start
  | .finished _ => .finished

/-- What an operation has returned, once it has. -/
def Thread.result : Thread → Option (Outcome SchedulerError SchedulerResult)
  | .finished r => some r
  | _ => none

/-- One step of an operation: all it does up to the next release of the lock
(for the last step, up to its return). The operation afterwards, the store
afterwards, and the events of the step. -/
def Thread.step (env : SchedulerEnv) (s : Scheduler) :
    Thread → Thread × Scheduler × List LockEvent
  | .create params =>
    let cfg := env.cfg
    if (GoMap.len s.tasks : Int) ≥ cfg.Tools.Scheduler.MaxTasks then
      (.finished (.fail (.maxTasks cfg.Tools.Scheduler.MaxTasks)), s, [.rlock, .runlock])
    else (.createChecked params, s, [.rlock, .runlock])
  | .createChecked params =>
    let r := s.createChecked env params
    (.finished (asResult r).1, r.2, s.createCheckedEvents env params)
  | .update params =>
    let r := s.updateTask env params
    (.finished (asResult r).1, r.2, s.updateEvents env params)
  | .delete params =>
    let r := s.deleteTask env params
    (.finished r.1, r.2, s.deleteEvents env params)
  | .finished result => (.finished result, s, [])

/-- The events of an operation that runs to its return with no other operation
in between. -/
def Thread.events (env : SchedulerEnv) (s : Scheduler) (th : Thread) : List LockEvent :=
  let first := th.step env s
  let second := first.1.step env first.2.1
  first.2.2 ++ second.2.2

/-- Whether no notification goroutine is started between a `Lock` and the
`Unlock` that follows it; `held` tells whether the exclusive lock is held at
the start of the events. -/
def dispatchOutsideLock : Bool → List LockEvent → Bool
  | _, [] => true
  | _, .lock :: es => dispatchOutsideLock true es
  | _, .unlock :: es => dispatchOutsideLock false es
  | held, .dispatch _ _ :: es => !held && dispatchOutsideLock held es
  | held, .rlock :: es => dispatchOutsideLock held es
  | held, .runlock :: es => dispatchOutsideLock held es
  | held, .mutate :: es => dispatchOutsideLock held es

/-- The notifications handed off by some events, in order. -/
def dispatched : List LockEvent → List (String × Task)
  | [] => []
  | .dispatch eventType task :: es => (eventType, task) :: dispatched es
  | .rlock :: es => dispatched es
  | .runlock :: es => dispatched es
  | .lock :: es => dispatched es
  | .unlock :: es => dispatched es
  | .mutate :: es => dispatched es

/-- The store and the operations in progress on it. -/
structure System where
  store : Scheduler
  threads : List Thread

/-- The operation number `i` takes its next step. -/
def System.step (env : SchedulerEnv) (sys : System) (i : Nat) : System :=
  match sys.threads.get? i with
  | none => sys
  | some th =>
    let r := th.step env sys.store
    { store := r.2.1, threads := sys.threads.set i r.1 }

/-- An interleaving: the operations take their steps in the order of the
schedule. -/
def System.run (env : SchedulerEnv) : System → List Nat → System
  | sys, [] => sys
  | sys, i :: schedule => System.run env (sys.step env i) schedule

/-! ## Runs and sample data -/

/-- Create requests served one after another by `createTask`: the outcomes, in
order, and the scheduler afterwards. -/
def Scheduler.createAll (env : SchedulerEnv) : Scheduler → List Bag →
    List (Outcome SchedulerError Task) × Scheduler
  | s, [] => ([], s)
  | s, params :: rest =>
    let step := s.createTask env params
    let tail := Scheduler.createAll env step.2 rest
    (step.1 :: tail.1, tail.2)

/-- A tool with the given identity, no parameters and no state. -/
def sampleTool (id : String) : Tool Unit Unit Unit where
  GetInfo := { ID := id, Name := id, Description := "", Version := "1.0.0", Category := "" }
  Execute := fun _ s => (.ok (), s)
  GetParams := []

/-- A loaded configuration: one allow-listed directory, two allow-listed
commands, a timeout limit of 60 seconds and room for `maxTasks` tasks. -/
def sampleConfig (maxTasks : Int) : Config where
  Tools :=
    { FileManager := { AllowedPaths := ["/allowed/root"], MaxFileSize := 1048576 }
      ShellExecutor := { AllowedCommands := ["ls", "echo"], MaxTimeout := 60 }
      Scheduler := { MaxTasks := maxTasks, EnableNotifications := false } }

/-- An environment whose clock advances by one nanosecond at every reading. -/
def tickingEnv (maxTasks : Int) : SchedulerEnv where
  cfg := sampleConfig maxTasks
  now := fun k => 1700000000000000000 + k
  parse := parseRFC3339

/-- An environment whose clock gives the same reading every time. -/
def stuckEnv (maxTasks : Int) : SchedulerEnv where
  cfg := sampleConfig maxTasks
  now := fun _ => 1700000000000000000
  parse := parseRFC3339

/-- The shell executor's environment on a platform where an out-of-range
conversion gives the least `int`. -/
def sampleShellEnv : ShellEnv where
  cfg := sampleConfig 2
  overflow := fun _ => -(2 : Int) ^ 63

/-- A task titled `title`, described by `description`, stored as `task_1`. -/
def sampleTask (title description : String) : Task where
  ID := "task_1"
  Title := title
  Description := description
  DueTime := zeroTime
  Status := "pending"
  CreatedAt := 1700000000000000000
  UpdatedAt := 1700000000000000000

/-- A scheduler holding `sampleTask title description` only. -/
def sampleScheduler (title description : String) : Scheduler where
  tasks := [("task_1", sampleTask title description)]
  clock := 3
  notifications := []

/-- The ticking environment with notifications enabled. -/
def notifyingEnv (maxTasks : Int) : SchedulerEnv where
  cfg :=
    { Tools :=
        { FileManager := (sampleConfig maxTasks).Tools.FileManager
          ShellExecutor := (sampleConfig maxTasks).Tools.ShellExecutor
          Scheduler := { MaxTasks := maxTasks, EnableNotifications := true } } }
  now := fun k => 1700000000000000000 + k
  parse := parseRFC3339

/-- The shell executor's environment with the given timeout limit, on a
platform where an out-of-range conversion gives the least `int`. -/
def limitedShellEnv (maxTimeout : Int) : ShellEnv where
  cfg :=
    { Tools :=
        { FileManager := (sampleConfig 2).Tools.FileManager
          ShellExecutor := { AllowedCommands := ["ls", "echo"], MaxTimeout := maxTimeout }
          Scheduler := (sampleConfig 2).Tools.Scheduler } }
  overflow := fun _ => -(2 : Int) ^ 63

/-! ## Lemmas on Go maps -/

namespace GoMap

variable {α : Type}

theorem get_set_self (m : GoMap α) (k : String) (v : α) : get (set m k v) k = some v := by
  induction m with
  | nil => simp [set, get]
  | cons e m ih =>
    obtain ⟨k', v'⟩ := e
    by_cases h : k' = k
    · simp [set, get, h]
    · simp [set, get, h, ih]

theorem get_set_ne (m : GoMap α) (k k' : String) (v : α) (h : k ≠ k') :
    get (set m k v) k' = get m k' := by
  induction m with
  | nil => simp [set, get, h]
  | cons e m ih =>
    obtain ⟨k0, v0⟩ := e
    by_cases h0 : k0 = k
    · subst h0
      simp [set, get, h]
    · by_cases h1 : k0 = k'
      · subst h1
        simp [set, get, h0]
      · simp [set, get, h0, h1, ih]

theorem set_of_get_none (m : GoMap α) (k : String) (v : α) (h : get m k = none) :
    set m k v = m ++ [(k, v)] := by
  induction m with
  | nil => rfl
  | cons e m ih =>
    obtain ⟨k0, v0⟩ := e
    by_cases h0 : k0 = k
    · simp [get, h0] at h
    · simp only [get, h0, if_false] at h
      simp [set, h0, ih h]

theorem len_set_of_get_none (m : GoMap α) (k : String) (v : α) (h : get m k = none) :
    len (set m k v) = len m + 1 := by
  simp [set_of_get_none m k v h, len]

theorem len_set_of_get_some (m : GoMap α) (k : String) (v v0 : α) (h : get m k = some v0) :
    len (set m k v) = len m := by
  induction m with
  | nil => simp [get] at h
  | cons e m ih =>
    obtain ⟨k1, v1⟩ := e
    by_cases h1 : k1 = k
    · simp [set, len, h1]
    · simp only [get, h1, if_false] at h
      have := ih h
      simp only [len] at this
      simp [set, len, h1, this]

theorem get_append_single (m : GoMap α) (k k' : String) (v : α) :
    get (m ++ [(k, v)]) k' = match get m k' with
      | some x => some x
      | none => if k = k' then some v else none := by
  induction m with
  | nil => simp [get]
  | cons e m ih =>
    obtain ⟨k0, v0⟩ := e
    by_cases h0 : k0 = k'
    · simp [get, h0]
    · simp [get, h0, ih]

theorem get_eq_none_iff (m : GoMap α) (k : String) : get m k = none ↔ k ∉ keys m := by
  induction m with
  | nil => simp [get, keys]
  | cons e m ih =>
    obtain ⟨k0, v0⟩ := e
    by_cases h0 : k0 = k
    · simp [get, keys, h0]
    · have h1 : ¬ k = k0 := fun h => h0 h.symm
      simp only [keys] at ih
      simp [get, keys, h0, h1, ih]

end GoMap

/-! ## The registry -/

/-- Registering, into a registry, tools whose identities are non-empty,
pairwise distinct and absent from it: no error, and the tools are added. -/
theorem registerAll_fresh (ts : List (Tool σ ε ρ)) :
    ∀ r : DefaultRegistry σ ε ρ,
      (∀ t ∈ ts, t.GetInfo.ID ≠ "") →
      (ts.map fun t => t.GetInfo.ID).Nodup →
      (∀ t ∈ ts, GoMap.get r.tools t.GetInfo.ID = none) →
      (r.registerAll ts).1 = List.replicate ts.length none ∧
      (r.registerAll ts).2.tools = r.tools ++ ts.map fun t => (t.GetInfo.ID, t) := by
  induction ts with
  | nil => intro r _ _ _; simp [DefaultRegistry.registerAll]
  | cons t ts ih =>
    intro r hne hnd hfresh
    have ht : t.GetInfo.ID ≠ "" := hne t (List.mem_cons_self _ _)
    have hg : GoMap.get r.tools t.GetInfo.ID = none := hfresh t (List.mem_cons_self _ _)
    have hstep : r.Register t = (none, ⟨r.tools ++ [(t.GetInfo.ID, t)]⟩) := by
      simp [DefaultRegistry.Register, ht, hg, GoMap.set_of_get_none]
    simp only [List.map_cons, List.nodup_cons, List.mem_map, not_exists, not_and] at hnd
    have hrest := ih ⟨r.tools ++ [(t.GetInfo.ID, t)]⟩
      (fun u hu => hne u (List.mem_cons_of_mem _ hu)) hnd.2
      (fun u hu => by
        have h1 := hfresh u (List.mem_cons_of_mem _ hu)
        have h2 : ¬ t.GetInfo.ID = u.GetInfo.ID := fun h => hnd.1 u hu h.symm
        simp [GoMap.get_append_single, h1, h2])
    simp only [DefaultRegistry.registerAll, hstep, List.length_cons, List.replicate_succ,
      List.map_cons]
    refine ⟨by rw [hrest.1], ?_⟩
    rw [hrest.2]
    simp

/-- C1. A `Register` of a tool whose identity is empty or already present
returns an error and leaves the registry as it was: the same identities, the
same tool under each identity, the same number of tools. -/
theorem register_rejected_keeps_registry (r : DefaultRegistry σ ε ρ) (tool : Tool σ ε ρ)
    (h : tool.GetInfo.ID = "" ∨ GoMap.get r.tools tool.GetInfo.ID ≠ none) :
    ((r.Register tool).1 = some .emptyID ∨
      (r.Register tool).1 = some (.alreadyExists tool.GetInfo.ID)) ∧
    (r.Register tool).2 = r ∧
    GoMap.keys (r.Register tool).2.tools = GoMap.keys r.tools ∧
    (∀ id, GoMap.get (r.Register tool).2.tools id = GoMap.get r.tools id) ∧
    GoMap.len (r.Register tool).2.tools = GoMap.len r.tools ∧
    (r.Register tool).2.List = r.List := by
  have key : ((r.Register tool).1 = some .emptyID ∨
      (r.Register tool).1 = some (.alreadyExists tool.GetInfo.ID)) ∧
      (r.Register tool).2 = r := by
    unfold DefaultRegistry.Register
    by_cases h0 : tool.GetInfo.ID = ""
    · simp [h0]
    · cases hg : GoMap.get r.tools tool.GetInfo.ID with
      | none => rcases h with h | h
                · exact absurd h h0
                · exact absurd hg h
      | some t0 => simp [h0, hg]
  refine ⟨key.1, key.2, ?_, ?_, ?_, ?_⟩ <;> simp [key.2]

/-- A registry holding one tool, a second tool of the same identity is
rejected and the first one stays. -/
theorem register_rejected_keeps_registry_witness :
    ((sampleTool "a").GetInfo.ID = "" ∨
        GoMap.get (DefaultRegistry.mk [("a", sampleTool "a")]).tools (sampleTool "a").GetInfo.ID
          ≠ none) ∧
    (((DefaultRegistry.mk [("a", sampleTool "a")]).Register (sampleTool "a")).1
        = some .emptyID ∨
      ((DefaultRegistry.mk [("a", sampleTool "a")]).Register (sampleTool "a")).1
        = some (.alreadyExists (sampleTool "a").GetInfo.ID)) ∧
    ((DefaultRegistry.mk [("a", sampleTool "a")]).Register (sampleTool "a")).2
      = DefaultRegistry.mk [("a", sampleTool "a")] :=
  have h : (sampleTool "a").GetInfo.ID = "" ∨
      GoMap.get (DefaultRegistry.mk [("a", sampleTool "a")]).tools (sampleTool "a").GetInfo.ID
        ≠ none := Or.inr (by simp [GoMap.get, sampleTool])
  ⟨h, (register_rejected_keeps_registry _ _ h).1, (register_rejected_keeps_registry _ _ h).2.1⟩

/-- C2. Tools with non-empty, pairwise distinct identities, registered one
after another into an empty registry: every registration succeeds, after the
first `k` of them the registry holds `k` tools, and `List` then returns
exactly the registered tools, one entry for each identity. -/
theorem register_distinct_then_list (ts : List (Tool σ ε ρ))
    (hne : ∀ t ∈ ts, t.GetInfo.ID ≠ "")
    (hnd : (ts.map fun t => t.GetInfo.ID).Nodup) :
    (∀ k, k ≤ ts.length →
      ((NewRegistry : DefaultRegistry σ ε ρ).registerAll (ts.take k)).1 = List.replicate k none ∧
      GoMap.len ((NewRegistry : DefaultRegistry σ ε ρ).registerAll (ts.take k)).2.tools = k) ∧
    (((NewRegistry : DefaultRegistry σ ε ρ).registerAll ts).2.List).length = ts.length ∧
    (((NewRegistry : DefaultRegistry σ ε ρ).registerAll ts).2.List).Perm ts ∧
    ((((NewRegistry : DefaultRegistry σ ε ρ).registerAll ts).2.List).map
      fun t => t.GetInfo.ID).Perm (ts.map fun t => t.GetInfo.ID) := by
  have hall : ∀ us : List (Tool σ ε ρ), (∀ t ∈ us, t.GetInfo.ID ≠ "") →
      (us.map fun t => t.GetInfo.ID).Nodup →
      ((NewRegistry : DefaultRegistry σ ε ρ).registerAll us).1 = List.replicate us.length none ∧
      ((NewRegistry : DefaultRegistry σ ε ρ).registerAll us).2.tools
        = us.map fun t => (t.GetInfo.ID, t) := by
    intro us h1 h2
    have := registerAll_fresh us (NewRegistry : DefaultRegistry σ ε ρ) h1 h2
      (fun t _ => by simp [NewRegistry, GoMap.get])
    simpa [NewRegistry] using this
  have hfull := hall ts hne hnd
  have hlist : ((NewRegistry : DefaultRegistry σ ε ρ).registerAll ts).2.List = ts := by
    simp [DefaultRegistry.List, GoMap.values, hfull.2, Function.comp_def]
  refine ⟨?_, ?_, ?_, ?_⟩
  · intro k hk
    have htk := hall (ts.take k)
      (fun t ht => hne t (List.mem_of_mem_take ht))
      ((List.take_sublist k ts).map _ |>.nodup hnd)
    have hl : (ts.take k).length = k := by simp [hk]
    rw [hl] at htk
    refine ⟨htk.1, ?_⟩
    rw [htk.2]
    simp [GoMap.len, hk]
  · rw [hlist]
  · rw [hlist]
  · rw [hlist]

/-- Three tools `a`, `b`, `c` registered into an empty registry. -/
theorem register_distinct_then_list_witness :
    (∀ t ∈ [sampleTool "a", sampleTool "b", sampleTool "c"], t.GetInfo.ID ≠ "") ∧
    ([sampleTool "a", sampleTool "b", sampleTool "c"].map fun t => t.GetInfo.ID).Nodup ∧
    (((NewRegistry : DefaultRegistry Unit Unit Unit).registerAll
      [sampleTool "a", sampleTool "b", sampleTool "c"]).2.List).length = 3 :=
  ⟨by simp [sampleTool], by simp [sampleTool],
    (register_distinct_then_list [sampleTool "a", sampleTool "b", sampleTool "c"]
      (by simp [sampleTool]) (by simp [sampleTool])).2.1⟩
/-! ## The dispatch pre-check -/

/-- The loop finds no missing parameter exactly when every required
parameter is a key of the bag. -/
theorem missingRequired_eq_none (specs : List ParamSpec) (params : Bag) :
    missingRequired specs params = none ↔
      ∀ spec ∈ specs, spec.Required = true → GoMap.get params spec.Name ≠ none := by
  induction specs with
  | nil => simp [missingRequired]
  | cons p ps ih =>
    cases hr : p.Required with
    | false => simp [missingRequired, hr, ih]
    | true =>
      cases hg : GoMap.get params p.Name with
      | none => simp [missingRequired, hr, hg]
      | some v => simp [missingRequired, hr, hg, ih]

/-- The name the loop stops at is that of the first required parameter, in
schema order, that is not a key of the bag. -/
theorem missingRequired_eq_some (specs : List ParamSpec) (params : Bag) (name : String)
    (h : missingRequired specs params = some name) :
    ∃ before spec after, specs = before ++ spec :: after ∧ spec.Required = true ∧
      spec.Name = name ∧ GoMap.get params spec.Name = none ∧
      ∀ q ∈ before, q.Required = true → GoMap.get params q.Name ≠ none := by
  induction specs with
  | nil => simp [missingRequired] at h
  | cons p ps ih =>
    have step : (p.Required = true → GoMap.get params p.Name ≠ none) →
        missingRequired ps params = some name →
        ∃ before spec after, p :: ps = before ++ spec :: after ∧ spec.Required = true ∧
          spec.Name = name ∧ GoMap.get params spec.Name = none ∧
          ∀ q ∈ before, q.Required = true → GoMap.get params q.Name ≠ none := by
      intro hp h'
      obtain ⟨before, spec, after, h1, h2, h3, h4, h5⟩ := ih h'
      refine ⟨p :: before, spec, after, by simp [h1], h2, h3, h4, ?_⟩
      intro q hq hqr
      rcases List.mem_cons.1 hq with rfl | hq
      · exact hp hqr
      · exact h5 q hq hqr
    cases hr : p.Required with
    | false =>
      simp only [missingRequired, hr] at h
      exact step (by simp [hr]) (by simpa using h)
    | true =>
      cases hg : GoMap.get params p.Name with
      | none =>
        simp only [missingRequired, hr, hg, if_true] at h
        refine ⟨[], p, ps, rfl, hr, ?_, hg, by simp⟩
        simpa using h
      | some v =>
        simp only [missingRequired, hr, hg, if_true] at h
        exact step (by simp [hg]) h

/-- C3. The pre-check of `handleToolExecution`, for every schema and every
bag. If some required parameter is not a key of the bag, the answer is the
missing-parameter error naming the first such parameter in schema order, and
`Execute` is not called. Otherwise `Execute` is called exactly once, with the
bag as it was supplied, and its outcome is the answer. -/
theorem handleToolExecution_precheck (tool : Tool σ ε ρ) (params : Bag) (s : σ)
    (calls : List Bag) :
    ((∃ spec ∈ tool.GetParams, spec.Required = true ∧ GoMap.get params spec.Name = none) →
      ∃ before spec after, tool.GetParams = before ++ spec :: after ∧
        spec.Required = true ∧ GoMap.get params spec.Name = none ∧
        (∀ q ∈ before, q.Required = true → GoMap.get params q.Name ≠ none) ∧
        handleToolExecution (recording tool) (some params) (s, calls) =
          (.httpError ("Missing required parameter: " ++ spec.Name) 400, (s, calls)) ∧
        handleToolExecution tool (some params) s =
          (.httpError ("Missing required parameter: " ++ spec.Name) 400, s)) ∧
    ((∀ spec ∈ tool.GetParams, spec.Required = true → GoMap.get params spec.Name ≠ none) →
      handleToolExecution (recording tool) (some params) (s, calls) =
        (Response.ofOutcome (tool.Execute params s).1,
          ((tool.Execute params s).2, calls ++ [params])) ∧
      handleToolExecution tool (some params) s =
        (Response.ofOutcome (tool.Execute params s).1, (tool.Execute params s).2)) := by
  constructor
  · rintro ⟨spec, hmem, hreq, hnone⟩
    cases hm : missingRequired tool.GetParams params with
    | none =>
      exact absurd hnone ((missingRequired_eq_none _ _).1 hm spec hmem hreq)
    | some name =>
      obtain ⟨before, sp, after, h1, h2, h3, h4, h5⟩ := missingRequired_eq_some _ _ _ hm
      refine ⟨before, sp, after, h1, h2, h4, h5, ?_, ?_⟩
      · simp [handleToolExecution, recording, hm, h3]
      · simp [handleToolExecution, hm, h3]
  · intro hall
    have hm := (missingRequired_eq_none _ _).2 hall
    constructor
    · simp [handleToolExecution, recording, hm]
    · simp [handleToolExecution, hm]
/-! ## Task identities -/

theorem digitChar_value (d : Nat) (h : d < 10) : (Nat.digitChar d).toNat - 48 = d := by
  interval_cases d <;> rfl

theorem digitChar_ne_minus (d : Nat) (h : d < 10) : Nat.digitChar d ≠ '-' := by
  interval_cases d <;> decide

theorem foldl_toDigitsCore (fuel : Nat) : ∀ (n : Nat) (ds : List Char), n < fuel →
    (Nat.toDigitsCore 10 fuel n ds).foldl (fun a c => a * 10 + (c.toNat - 48)) 0
      = ds.foldl (fun a c => a * 10 + (c.toNat - 48)) n := by
  induction fuel with
  | zero => intro n ds h; omega
  | succ fuel ih =>
    intro n ds h
    have hd : (Nat.digitChar (n % 10)).toNat - 48 = n % 10 :=
      digitChar_value _ (Nat.mod_lt _ (by decide))
    simp only [Nat.toDigitsCore]
    split
    · rename_i h0
      have hn : n % 10 = n := Nat.mod_eq_of_lt (by omega)
      simp only [List.foldl, hd, Nat.zero_mul, Nat.zero_add]
      rw [hn]
    · rename_i h0
      rw [ih (n / 10) _ (by omega)]
      simp only [List.foldl, hd]
      congr 1
      omega

theorem numeralValue_repr (n : Nat) : numeralValue (Nat.repr n).data = n := by
  simp [numeralValue, Nat.repr, Nat.toDigits, List.asString, foldl_toDigitsCore]

theorem head_toDigitsCore (fuel : Nat) : ∀ (n : Nat) (ds : List Char), n < fuel →
    ∃ c cs, Nat.toDigitsCore 10 fuel n ds = c :: cs ∧ c ≠ '-' := by
  induction fuel with
  | zero => intro n ds h; omega
  | succ fuel ih =>
    intro n ds h
    simp only [Nat.toDigitsCore]
    split
    · exact ⟨_, _, rfl, digitChar_ne_minus _ (Nat.mod_lt _ (by decide))⟩
    · exact ih (n / 10) _ (by omega)

theorem repr_ne_minus (n m : Nat) : Nat.repr n ≠ "-" ++ Nat.repr m := by
  intro h
  have h' := congrArg String.data h
  obtain ⟨c, cs, hc, hne⟩ := head_toDigitsCore (n + 1) n [] (Nat.lt_succ_self n)
  simp only [Nat.repr, Nat.toDigits, List.asString, String.data_append] at h'
  rw [hc] at h'
  simp at h'
  exact hne h'.1

theorem toString_int_injective (a b : Int) (h : toString a = toString b) : a = b := by
  cases a with
  | ofNat m =>
    cases b with
    | ofNat k =>
      have : m = k := by
        have h' := congrArg (fun s => numeralValue s.data) h
        simpa [toString, numeralValue_repr] using h'
      rw [this]
    | negSucc k => exact absurd h (repr_ne_minus m (k + 1))
  | negSucc m =>
    cases b with
    | ofNat k => exact absurd h.symm (repr_ne_minus k (m + 1))
    | negSucc k =>
      have h1 : (Nat.repr (m + 1)).data = (Nat.repr (k + 1)).data := by
        have h' := congrArg String.data h
        simpa [toString, String.data_append] using h'
      have : m + 1 = k + 1 := by
        have h2 := congrArg numeralValue h1
        simpa [numeralValue_repr] using h2
      have : m = k := by omega
      rw [this]

/-- Distinct clock readings give distinct task identities. -/
theorem taskID_injective (a b : Time) (h : taskID a = taskID b) : a = b := by
  apply toString_int_injective
  have h' := congrArg String.data h
  simp only [taskID, String.data_append] at h'
  exact String.ext (List.append_cancel_left h')
/-! ## The task store: creation -/

theorem hasTitleAndDescription_iff (params : Bag) :
    hasTitleAndDescription params = true ↔
      ∃ title description, params.getString "title" = some title ∧ title ≠ "" ∧
        GoMap.get params "description" = some (.str description) := by
  unfold hasTitleAndDescription Bag.getString
  rcases h1 : GoMap.get params "title" with _ | (_ | _ | _ | t | _ | _) <;>
    rcases h2 : GoMap.get params "description" with _ | (_ | _ | _ | d | _ | _) <;>
    simp

/-- One accepted create request below the ceiling: the task it returns and the
scheduler afterwards. -/
theorem createTask_accepted (env : SchedulerEnv) (s : Scheduler) (params : Bag)
    (hroom : (GoMap.len s.tasks : Int) < env.cfg.Tools.Scheduler.MaxTasks)
    (hacc : isAcceptableCreate env params = true) :
    ∃ task, s.createTask env params =
        (.ok task,
          { tasks := GoMap.set s.tasks task.ID task
            clock := s.clock + 3
            notifications :=
              if env.cfg.Tools.Scheduler.EnableNotifications then
                s.notifications ++ [("task_created", task)]
              else s.notifications }) ∧
      task.ID = taskID (env.now s.clock) ∧
      params.getString "title" = some task.Title ∧
      GoMap.get params "description" = some (.str task.Description) ∧
      task.Status = "pending" ∧
      task.CreatedAt = env.now (s.clock + 1) ∧
      task.UpdatedAt = env.now (s.clock + 2) := by
  simp only [isAcceptableCreate, Bool.and_eq_true] at hacc
  obtain ⟨htd, hdue⟩ := hacc
  obtain ⟨title, d, ht, hne, hd⟩ := (hasTitleAndDescription_iff params).1 htd
  have hcap : ¬ ((GoMap.len s.tasks : Int) ≥ env.cfg.Tools.Scheduler.MaxTasks) := by omega
  cases hdt : params.getString "due_time" with
  | none =>
    refine ⟨{ ID := taskID (env.now s.clock), Title := title, Description := d,
              DueTime := zeroTime, Status := "pending", CreatedAt := env.now (s.clock + 1),
              UpdatedAt := env.now (s.clock + 2) }, ?_, rfl, ht, hd, rfl, rfl, rfl⟩
    simp only [Scheduler.createTask, hcap, ht, hne, hd, hdt, if_false, Scheduler.insertTask]
  | some due =>
    rw [hdt] at hdue
    cases hp : env.parse due with
    | none => simp [hp] at hdue
    | some t =>
      refine ⟨{ ID := taskID (env.now s.clock), Title := title, Description := d,
                DueTime := t, Status := "pending", CreatedAt := env.now (s.clock + 1),
                UpdatedAt := env.now (s.clock + 2) }, ?_, rfl, ht, hd, rfl, rfl, rfl⟩
      simp only [Scheduler.createTask, hcap, ht, hne, hd, hdt, hp, if_false,
        Scheduler.insertTask]

/-- A create request at the ceiling fails and changes nothing. -/
theorem createTask_at_ceiling (env : SchedulerEnv) (s : Scheduler) (params : Bag)
    (hfull : (GoMap.len s.tasks : Int) ≥ env.cfg.Tools.Scheduler.MaxTasks) :
    s.createTask env params = (.fail (.maxTasks env.cfg.Tools.Scheduler.MaxTasks), s) := by
  simp [Scheduler.createTask, hfull]

/-- Accepted create requests served one after another, with room for all of
them and identities that are new to the store and pairwise distinct. -/
theorem createAll_accepted (env : SchedulerEnv) (reqs : List Bag) :
    ∀ s : Scheduler,
      ((GoMap.len s.tasks + reqs.length : Nat) : Int) ≤ env.cfg.Tools.Scheduler.MaxTasks →
      (∀ params ∈ reqs, isAcceptableCreate env params = true) →
      (∀ i, i < reqs.length → GoMap.get s.tasks (taskID (env.now (s.clock + 3 * i))) = none) →
      (∀ i j, i < j → j < reqs.length →
        env.now (s.clock + 3 * i) ≠ env.now (s.clock + 3 * j)) →
      ∃ ts : List Task,
        (s.createAll env reqs).1 = ts.map Outcome.ok ∧
        (s.createAll env reqs).2.tasks = s.tasks ++ ts.map (fun t => (t.ID, t)) ∧
        (s.createAll env reqs).2.clock = s.clock + 3 * reqs.length ∧
        ts.map (fun t => t.ID)
          = (List.range reqs.length).map (fun i => taskID (env.now (s.clock + 3 * i))) ∧
        List.Forall₂ (fun (params : Bag) (t : Task) =>
          Bag.getString params "title" = some t.Title ∧
          GoMap.get params "description" = some (.str t.Description) ∧
          t.Status = "pending") reqs ts := by
  induction reqs with
  | nil => intro s _ _ _ _; exact ⟨[], by simp [Scheduler.createAll]⟩
  | cons params rest ih =>
    intro s hroom hacc hfresh hclock
    simp only [List.length_cons] at hroom hfresh hclock
    obtain ⟨task, hstep, hid, htitle, hdesc, hstatus, -, -⟩ :=
      createTask_accepted env s params (by push_cast at hroom ⊢; omega)
        (hacc params (List.mem_cons_self _ _))
    have hnew : GoMap.get s.tasks task.ID = none := by
      have := hfresh 0 (by omega)
      simpa [hid] using this
    rw [GoMap.set_of_get_none _ _ _ hnew] at hstep
    have hlen1 : GoMap.len (s.tasks ++ [(task.ID, task)]) = GoMap.len s.tasks + 1 := by
      simp [GoMap.len]
    obtain ⟨ts, h1, h2, h3, h4, h5⟩ := ih (s.createTask env params).2
      (by rw [hstep]; simp only [hlen1]; push_cast at hroom ⊢; omega)
      (fun p hp => hacc p (List.mem_cons_of_mem _ hp))
      (by
        intro i hi
        rw [hstep]
        simp only
        have e : s.clock + 3 + 3 * i = s.clock + 3 * (i + 1) := by omega
        rw [e, GoMap.get_append_single, hfresh (i + 1) (by omega)]
        have hne : ¬ task.ID = taskID (env.now (s.clock + 3 * (i + 1))) := by
          intro h
          rw [hid] at h
          exact hclock 0 (i + 1) (by omega) (by omega) (taskID_injective _ _ h)
        simp [hne])
      (by
        intro i j hij hj
        rw [hstep]
        simp only
        have e1 : s.clock + 3 + 3 * i = s.clock + 3 * (i + 1) := by omega
        have e2 : s.clock + 3 + 3 * j = s.clock + 3 * (j + 1) := by omega
        rw [e1, e2]
        exact hclock (i + 1) (j + 1) (by omega) (by omega))
    rw [hstep] at h1 h2 h3 h4
    simp only at h2 h3 h4
    refine ⟨task :: ts, ?_, ?_, ?_, ?_, ?_⟩
    · simp [Scheduler.createAll, h1, hstep]
    · simp [Scheduler.createAll, h2, hstep]
    · simp only [Scheduler.createAll, hstep, h3, List.length_cons]
      omega
    · simp only [List.map_cons, List.length_cons, List.range_succ_eq_map, h4, hid,
        List.map_map]
      congr 1
      apply List.map_congr_left
      intro i _
      simp only [Function.comp]
      congr 2
      omega
    · exact List.Forall₂.cons ⟨htitle, hdesc, hstatus⟩ h5
/-- C4, as amended. With a ceiling of `M` tasks and an empty store, `M` create
requests that each hold a non-empty title, a string description and no
due-time string that `time.Parse` rejects all succeed, provided the clock
readings their identities are derived from are pairwise distinct: request
number `i` returns a pending task whose identity is `task_` followed by the
clock reading taken for it, and the store then holds exactly these `M` tasks.
The next create request, whatever it holds, fails with the capacity error and
leaves the scheduler as it was. -/
theorem create_until_ceiling (env : SchedulerEnv) (M : Nat) (s0 : Scheduler)
    (reqs : List Bag) (next : Bag)
    (hM : env.cfg.Tools.Scheduler.MaxTasks = M)
    (hempty : s0.tasks = [])
    (hlen : reqs.length = M)
    (hreq : ∀ params ∈ reqs, isAcceptableCreate env params = true)
    (hclock : ∀ i j, i < j → j < M →
      env.now (s0.clock + 3 * i) ≠ env.now (s0.clock + 3 * j)) :
    ∃ ts : List Task,
      (s0.createAll env reqs).1 = ts.map Outcome.ok ∧
      ts.length = M ∧
      ts.map (fun t => t.ID)
        = (List.range M).map (fun i => taskID (env.now (s0.clock + 3 * i))) ∧
      List.Forall₂ (fun (params : Bag) (t : Task) =>
        Bag.getString params "title" = some t.Title ∧
        GoMap.get params "description" = some (.str t.Description) ∧
        t.Status = "pending") reqs ts ∧
      GoMap.values (s0.createAll env reqs).2.tasks = ts ∧
      GoMap.len (s0.createAll env reqs).2.tasks = M ∧
      (s0.createAll env reqs).2.createTask env next
        = (.fail (.maxTasks M), (s0.createAll env reqs).2) := by
  obtain ⟨ts, h1, h2, -, h4, h5⟩ := createAll_accepted env reqs s0
    (by simp [hempty, GoMap.len, hM, hlen])
    hreq (by intro i _; simp [hempty, GoMap.get])
    (by intro i j hij hj; exact hclock i j hij (hlen ▸ hj))
  have hl : ts.length = M := by
    have := congrArg List.length h4
    simpa [hlen] using this
  rw [hempty, List.nil_append] at h2
  have hlen2 : GoMap.len (s0.createAll env reqs).2.tasks = M := by
    simp [GoMap.len, h2, hl]
  refine ⟨ts, h1, hl, hlen ▸ h4, h5, ?_, hlen2, ?_⟩
  · simp [GoMap.values, h2, Function.comp_def]
  · have := createTask_at_ceiling env (s0.createAll env reqs).2 next (by rw [hlen2, hM])
    rw [this, hM]

/-- Two creates fill a store of ceiling 2 under a ticking clock, and the third
is refused. -/
theorem create_until_ceiling_witness :
    ∃ ts : List Task,
      (NewScheduler.createAll (tickingEnv 2)
        [[("title", .str "a"), ("description", .str "first")],
         [("title", .str "b"), ("description", .str ""),
          ("due_time", .str "2024-01-01T00:00:00Z")]]).1 = ts.map Outcome.ok ∧
      ts.length = 2 ∧
      (NewScheduler.createAll (tickingEnv 2)
        [[("title", .str "a"), ("description", .str "first")],
         [("title", .str "b"), ("description", .str ""),
          ("due_time", .str "2024-01-01T00:00:00Z")]]).2.createTask (tickingEnv 2)
          [("title", .str "c"), ("description", .str "third")]
        = (.fail (.maxTasks (2 : Nat)),
            (NewScheduler.createAll (tickingEnv 2)
              [[("title", .str "a"), ("description", .str "first")],
               [("title", .str "b"), ("description", .str ""),
                ("due_time", .str "2024-01-01T00:00:00Z")]]).2) := by
  obtain ⟨ts, h1, h2, -, -, -, -, h7⟩ := create_until_ceiling (tickingEnv 2) 2 NewScheduler
    [[("title", .str "a"), ("description", .str "first")],
     [("title", .str "b"), ("description", .str ""), ("due_time", .str "2024-01-01T00:00:00Z")]]
    [("title", .str "c"), ("description", .str "third")]
    rfl rfl rfl (by decide)
    (by intro i j hij _; simp [tickingEnv, NewScheduler]; omega)
  exact ⟨ts, h1, h2, h7⟩

/-- C4, the claim as stated fails. A create request with a title, a description
and a due time that does not parse fails although the store is empty and the
ceiling is 1. And when the clock gives the same reading twice, two creates
under a ceiling of 2 both succeed but leave one task, so that the third create
succeeds as well instead of failing with the capacity error. -/
theorem create_claim_counterexample :
    (hasTitleAndDescription
        [("title", .str "a"), ("description", .str "d"), ("due_time", .str "tomorrow")] = true ∧
      (NewScheduler.createTask (tickingEnv 1)
        [("title", .str "a"), ("description", .str "d"), ("due_time", .str "tomorrow")]).1
        = .fail (.invalidDueTime "tomorrow")) ∧
    (hasTitleAndDescription [("title", .str "a"), ("description", .str "d")] = true ∧
      hasTitleAndDescription [("title", .str "b"), ("description", .str "e")] = true ∧
      GoMap.len (NewScheduler.createAll (stuckEnv 2)
        [[("title", .str "a"), ("description", .str "d")],
         [("title", .str "b"), ("description", .str "e")]]).2.tasks = 1 ∧
      ((NewScheduler.createAll (stuckEnv 2)
        [[("title", .str "a"), ("description", .str "d")],
         [("title", .str "b"), ("description", .str "e")]]).2.createTask (stuckEnv 2)
          [("title", .str "c"), ("description", .str "f")]).1
        ≠ .fail (.maxTasks 2)) := by
  decide

/-! ## The task store: update -/

/-- What the three conditional writes leave in each field. -/
theorem writeFields_eq (params : Bag) (task : Task) :
    writeFields params task =
      { ID := task.ID
        Title :=
          match params.getString "title" with
          | some title => if title ≠ "" then title else task.Title
          | none => task.Title
        Description := (params.getString "description").getD task.Description
        DueTime := task.DueTime
        Status :=
          match params.getString "status" with
          | some status => if status ≠ "" then status else task.Status
          | none => task.Status
        CreatedAt := task.CreatedAt
        UpdatedAt := task.UpdatedAt } := by
  unfold writeFields
  rcases params.getString "title" with _ | title <;>
    rcases params.getString "description" with _ | desc <;>
    rcases params.getString "status" with _ | status <;>
    simp only [Option.getD] <;> split_ifs <;> rfl
/-- What an update of an existing task that succeeds writes, field by field.
The title and the status are overwritten exactly when the request holds a
non-empty string for them; the description is overwritten whenever the
request holds a string for it, the empty string included; the due time is
overwritten whenever the request holds a string for it, which then parses. A
field whose value is absent is left as it was. The identity and created-at
are kept, updated-at is the clock reading, and no other task changes. -/
theorem update_overwrites_supplied (env : SchedulerEnv) (s s' : Scheduler) (params : Bag)
    (taskID : String) (old new : Task)
    (hid : params.getString "task_id" = some taskID)
    (hold : GoMap.get s.tasks taskID = some old)
    (hok : s.updateTask env params = (.ok new, s')) :
    (∀ t, params.getString "title" = some t → t ≠ "" → new.Title = t) ∧
    (params.getString "title" = none ∨ params.getString "title" = some "" →
      new.Title = old.Title) ∧
    (∀ d, params.getString "description" = some d → new.Description = d) ∧
    (params.getString "description" = none → new.Description = old.Description) ∧
    (∀ st, params.getString "status" = some st → st ≠ "" → new.Status = st) ∧
    (params.getString "status" = none ∨ params.getString "status" = some "" →
      new.Status = old.Status) ∧
    (∀ d, params.getString "due_time" = some d → env.parse d = some new.DueTime) ∧
    (params.getString "due_time" = none → new.DueTime = old.DueTime) ∧
    new.ID = old.ID ∧ new.CreatedAt = old.CreatedAt ∧ new.UpdatedAt = env.now s.clock ∧
    GoMap.get s'.tasks taskID = some new ∧
    (∀ k, k ≠ taskID → GoMap.get s'.tasks k = GoMap.get s.tasks k) ∧
    GoMap.len s'.tasks = GoMap.len s.tasks := by
  have hne : taskID ≠ "" := by
    intro h
    simp [Scheduler.updateTask, hid, h] at hok
  have key : ∃ due, (params.getString "due_time" = none ∧ due = old.DueTime ∨
        ∃ d, params.getString "due_time" = some d ∧ env.parse d = some due) ∧
      new = { writeFields params old with DueTime := due, UpdatedAt := env.now s.clock } ∧
      s'.tasks = GoMap.set s.tasks taskID new := by
    simp only [Scheduler.updateTask, hid, hne, hold, if_false] at hok
    cases hd : params.getString "due_time" with
    | none =>
      simp only [hd, Scheduler.finishUpdate, Prod.mk.injEq, Outcome.ok.injEq] at hok
      refine ⟨old.DueTime, Or.inl ⟨rfl, rfl⟩, ?_, ?_⟩
      · rw [← hok.1, writeFields_eq]
      · rw [← hok.2, ← hok.1]
    | some d =>
      cases hp : env.parse d with
      | none => simp [hd, hp] at hok
      | some t =>
        simp only [hd, hp, Scheduler.finishUpdate, Prod.mk.injEq, Outcome.ok.injEq] at hok
        refine ⟨t, Or.inr ⟨d, rfl, hp⟩, ?_, ?_⟩
        · rw [← hok.1]
        · rw [← hok.2, ← hok.1]
  obtain ⟨due, hdue, hnew, hstore⟩ := key
  rw [writeFields_eq] at hnew
  refine ⟨?_, ?_, ?_, ?_, ?_, ?_, ?_, ?_, ?_, ?_, ?_, ?_, ?_, ?_⟩
  · intro t ht hte
    simp [hnew, ht, hte]
  · intro h
    rcases h with h | h <;> simp [hnew, h]
  · intro d hd
    simp [hnew, hd]
  · intro h
    simp [hnew, h]
  · intro st hst hste
    simp [hnew, hst, hste]
  · intro h
    rcases h with h | h <;> simp [hnew, h]
  · intro d hd
    rcases hdue with ⟨h, _⟩ | ⟨d', h1, h2⟩
    · rw [h] at hd; cases hd
    · rw [h1] at hd
      cases hd
      simp [hnew, h2]
  · intro h
    rcases hdue with ⟨_, h2⟩ | ⟨d', h1, _⟩
    · simp [hnew, h2]
    · rw [h1] at h; cases h
  · simp [hnew]
  · simp [hnew]
  · simp [hnew]
  · rw [hstore, GoMap.get_set_self]
  · intro k hk
    rw [hstore, GoMap.get_set_ne _ _ _ _ (Ne.symm hk)]
  · rw [hstore]
    exact GoMap.len_set_of_get_some _ _ _ _ hold

/-- An update holding only a status: the title and the description stay. -/
theorem update_overwrites_supplied_witness :
    Bag.getString [("task_id", .str "task_1"), ("status", .str "completed")] "task_id"
      = some "task_1" ∧
    GoMap.get (sampleScheduler "title" "description").tasks "task_1"
      = some (sampleTask "title" "description") ∧
    ((sampleScheduler "title" "description").updateTask (tickingEnv 2)
      [("task_id", .str "task_1"), ("status", .str "completed")]).1 = .ok
        { sampleTask "title" "description" with
          Status := "completed", UpdatedAt := 1700000000000000003 } ∧
    ({ sampleTask "title" "description" with
        Status := "completed", UpdatedAt := 1700000000000000003 } : Task).Title = "title" :=
  ⟨by decide, by decide, by decide,
    (update_overwrites_supplied (tickingEnv 2) (sampleScheduler "title" "description")
      ((sampleScheduler "title" "description").updateTask (tickingEnv 2)
        [("task_id", .str "task_1"), ("status", .str "completed")]).2
      [("task_id", .str "task_1"), ("status", .str "completed")] "task_1"
      (sampleTask "title" "description")
      { sampleTask "title" "description" with
        Status := "completed", UpdatedAt := 1700000000000000003 }
      (by decide) (by decide) (by decide)).2.1 (Or.inl (by decide))⟩

/-- C5, the code at the failing input. An update whose description is the
empty string succeeds and overwrites the description of the task with it: the
write of the description lacks the test for the empty string that the writes
of the title and of the status have. An update whose title, description and
status are all empty leaves the title and the status and clears the
description. -/
theorem update_empty_description_overwrites :
    Bag.getString [("task_id", .str "task_1"), ("description", .str "")] "description"
      = some "" ∧
    GoMap.get (sampleScheduler "title" "description").tasks "task_1"
      = some (sampleTask "title" "description") ∧
    (sampleScheduler "title" "description").updateTask (tickingEnv 2)
        [("task_id", .str "task_1"), ("description", .str "")]
      = (.ok { sampleTask "title" "" with UpdatedAt := 1700000000000000003 },
          { tasks := [("task_1",
              { sampleTask "title" "" with UpdatedAt := 1700000000000000003 })]
            clock := 4
            notifications := [] }) ∧
    ({ sampleTask "title" "" with UpdatedAt := 1700000000000000003 } : Task).Description
      ≠ (sampleTask "title" "description").Description ∧
    ((sampleScheduler "title" "description").updateTask (tickingEnv 2)
        [("task_id", .str "task_1"), ("title", .str ""), ("description", .str ""),
         ("status", .str "")]).1
      = .ok { sampleTask "title" "" with UpdatedAt := 1700000000000000003 } := by
  decide

/-- An update stores any non-empty string as the status: the status is not
held to `pending`, `completed`, `cancelled`. -/
theorem update_stores_any_status :
    ((sampleScheduler "title" "description").updateTask (tickingEnv 2)
        [("task_id", .str "task_1"), ("status", .str "weird")]).1
      = .ok { sampleTask "title" "description" with
              Status := "weird", UpdatedAt := 1700000000000000003 } := by
  decide

/-! ## The task store: failed invocations, faults -/

/-- An update of an existing task whose due time does not parse returns the
error after the title, the description and the status have been written. -/
theorem updateTask_rejected_due_time (env : SchedulerEnv) (s : Scheduler) (params : Bag)
    (taskID dueTime : String) (old : Task)
    (hid : params.getString "task_id" = some taskID) (hne : taskID ≠ "")
    (hold : GoMap.get s.tasks taskID = some old)
    (hdue : params.getString "due_time" = some dueTime)
    (hparse : env.parse dueTime = none) :
    s.updateTask env params =
      (.fail (.invalidDueTime dueTime),
        { s with tasks := GoMap.set s.tasks taskID (writeFields params old) }) := by
  simp [Scheduler.updateTask, hid, hne, hold, hdue, hparse]

/-- C6, the code at the failing input. An update holding a new title and a due
time that does not parse returns the invalid-due-time error, and the task in
the store has the new title all the same: the store is not what it was. -/
theorem update_invalid_due_time_writes_title :
    (sampleScheduler "title" "description").Execute (tickingEnv 2)
        [("operation", .str "update"), ("task_id", .str "task_1"),
         ("title", .str "changed"), ("due_time", .str "tomorrow")]
      = (.fail (.invalidDueTime "tomorrow"),
          { tasks := [("task_1", sampleTask "changed" "description")]
            clock := 3
            notifications := [] }) ∧
    GoMap.get (sampleScheduler "title" "description").tasks "task_1"
      = some (sampleTask "title" "description") ∧
    ((sampleScheduler "title" "description").Execute (tickingEnv 2)
        [("operation", .str "update"), ("task_id", .str "task_1"),
         ("title", .str "changed"), ("due_time", .str "tomorrow")]).2.tasks
      ≠ (sampleScheduler "title" "description").tasks := by
  decide

/-- C7, the code at the failing inputs. A create request with a title and no
description panics on the unchecked type assertion, and a command line made of
blanks panics on the index into an empty slice of fields. -/
theorem execute_faults :
    (NewScheduler.Execute (tickingEnv 2)
        [("operation", .str "create"), ("title", .str "a")]).1
      = .fault (.typeAssertion "description") ∧
    (NewScheduler.Execute (tickingEnv 2)
        [("operation", .str "create"), ("title", .str "a"), ("description", .null)]).1
      = .fault (.typeAssertion "description") ∧
    ShellExecutor.Execute sampleShellEnv [("command", .str "   ")]
      = .fault (.indexOutOfRange 0 0) := by
  decide
/-- The scheduler behind the pre-check. A bag whose required `operation` key
is present with a null value, next to a key no parameter declares, passes the
pre-check: `Execute` is called once with the bag as supplied. -/
theorem handleToolExecution_precheck_witness :
    handleToolExecution (recording (Scheduler.tool (tickingEnv 2)))
        (some [("operation", .null), ("colour", .bool true)]) (NewScheduler, [])
      = (.toolError .operationRequired 500,
          (NewScheduler, [[("operation", .null), ("colour", .bool true)]])) :=
  ((handleToolExecution_precheck (Scheduler.tool (tickingEnv 2))
      [("operation", .null), ("colour", .bool true)] NewScheduler []).2
    (by simp [Scheduler.tool, Scheduler.GetParams, GoMap.get])).1.trans rfl

/-! ## The shell executor -/

theorem allowedLoop_iff (cmdName : String) (allowed : List String) :
    allowedLoop cmdName allowed = true ↔ cmdName ∈ allowed := by
  induction allowed with
  | nil => simp [allowedLoop]
  | cons a rest ih =>
    by_cases h : cmdName = a
    · simp [allowedLoop, h]
    · simp [allowedLoop, h, ih]

theorem Fields_empty : Fields "" = [] := by decide

/-- Execute, once the command line is known to have a leading token. -/
theorem ShellExecutor.Execute_of_fields (env : ShellEnv) (params : Bag)
    (command tok : String) (rest : List String)
    (hcmd : params.getString "command" = some command)
    (hfields : Fields command = tok :: rest) :
    ShellExecutor.Execute env params =
      if allowedLoop tok env.cfg.Tools.ShellExecutor.AllowedCommands then
        if effectiveTimeout env params > env.cfg.Tools.ShellExecutor.MaxTimeout then
          .fail (.timeoutExceeds env.cfg.Tools.ShellExecutor.MaxTimeout)
        else
          .ok { name := tok, args := rest, dir := (params.getString "working_dir").getD "",
                timeout := effectiveTimeout env params }
      else .fail (.commandNotAllowed command) := by
  have hne : command ≠ "" := by
    intro h
    rw [h, Fields_empty] at hfields
    cases hfields
  simp only [ShellExecutor.Execute, hcmd, hne, if_false, isCommandAllowed, hfields]
  cases allowedLoop tok env.cfg.Tools.ShellExecutor.AllowedCommands <;> simp

/-- C8. For a command line with a leading token, `Execute` fails with the
command-not-allowed error exactly when that token is not an entry of the
allow-list; it then starts no process; and two command lines with the same
leading token are treated alike, whatever their other tokens and whatever
else their bags hold. -/
theorem command_not_allowed_iff (env : ShellEnv) (params : Bag)
    (command tok : String) (rest : List String)
    (hcmd : params.getString "command" = some command)
    (hfields : Fields command = tok :: rest) :
    (ShellExecutor.Execute env params = .fail (.commandNotAllowed command) ↔
      tok ∉ env.cfg.Tools.ShellExecutor.AllowedCommands) ∧
    (tok ∉ env.cfg.Tools.ShellExecutor.AllowedCommands →
      ∀ spawn, ShellExecutor.Execute env params ≠ .ok spawn) ∧
    (∀ (params' : Bag) (command' : String) (rest' : List String),
      params'.getString "command" = some command' →
      Fields command' = tok :: rest' →
      (ShellExecutor.Execute env params' = .fail (.commandNotAllowed command') ↔
        ShellExecutor.Execute env params = .fail (.commandNotAllowed command))) := by
  have main : ∀ (p : Bag) (c : String) (r : List String),
      p.getString "command" = some c → Fields c = tok :: r →
      (ShellExecutor.Execute env p = .fail (.commandNotAllowed c) ↔
        tok ∉ env.cfg.Tools.ShellExecutor.AllowedCommands) := by
    intro p c r hc hf
    rw [ShellExecutor.Execute_of_fields env p c tok r hc hf, ← allowedLoop_iff]
    cases allowedLoop tok env.cfg.Tools.ShellExecutor.AllowedCommands
    · simp
    · simp only [if_true]
      split <;> simp
  refine ⟨main params command rest hcmd hfields, ?_, ?_⟩
  · intro hnot spawn
    rw [(main params command rest hcmd hfields).2 hnot]
    simp
  · intro p c r hc hf
    rw [main p c r hc hf, main params command rest hcmd hfields]

/-- The command `rm -rf /tmp/x` is refused on its leading token `rm`. -/
theorem command_not_allowed_iff_witness :
    Bag.getString [("command", .str "rm -rf /tmp/x")] "command" = some "rm -rf /tmp/x" ∧
    Fields "rm -rf /tmp/x" = ["rm", "-rf", "/tmp/x"] ∧
    ShellExecutor.Execute sampleShellEnv [("command", .str "rm -rf /tmp/x")]
      = .fail (.commandNotAllowed "rm -rf /tmp/x") :=
  ⟨by decide, by decide,
    (command_not_allowed_iff sampleShellEnv [("command", .str "rm -rf /tmp/x")]
      "rm -rf /tmp/x" "rm" ["-rf", "/tmp/x"] (by decide) (by decide)).1.2 (by decide)⟩

/-- C9, as amended. For a request whose command passes the allow-list check,
the timeout `Execute` works with is the integer part, rounded toward zero, of
the number the bag holds under `timeout` when that part fits an `int` of 64
bits, and 30 when the bag holds no `timeout` or holds one that is not a
number; `Execute` fails with the timeout-limit error exactly when this
timeout is greater than the configured maximum, then starts no process, and
otherwise goes on to start the process with this timeout. -/
theorem timeout_limit_iff (env : ShellEnv) (params : Bag) (command : String)
    (hcmd : params.getString "command" = some command)
    (hallowed : isCommandAllowed env.cfg command = .ok true)
    (hfits : ∀ t, GoMap.get params "timeout" = some (.num t) →
      -(2 : Int) ^ 63 ≤ t.trunc ∧ t.trunc < (2 : Int) ^ 63) :
    (∀ t, GoMap.get params "timeout" = some (.num t) →
      effectiveTimeout env params = t.trunc) ∧
    (GoMap.get params "timeout" = none → effectiveTimeout env params = 30) ∧
    (∀ v, GoMap.get params "timeout" = some v → (∀ t, v ≠ .num t) →
      effectiveTimeout env params = 30) ∧
    (ShellExecutor.Execute env params
        = .fail (.timeoutExceeds env.cfg.Tools.ShellExecutor.MaxTimeout) ↔
      effectiveTimeout env params > env.cfg.Tools.ShellExecutor.MaxTimeout) ∧
    (effectiveTimeout env params > env.cfg.Tools.ShellExecutor.MaxTimeout →
      ∀ spawn, ShellExecutor.Execute env params ≠ .ok spawn) ∧
    (¬ effectiveTimeout env params > env.cfg.Tools.ShellExecutor.MaxTimeout →
      ∃ spawn, ShellExecutor.Execute env params = .ok spawn ∧
        spawn.timeout = effectiveTimeout env params) := by
  obtain ⟨tok, rest, hf, hloop⟩ : ∃ tok rest, Fields command = tok :: rest ∧
      allowedLoop tok env.cfg.Tools.ShellExecutor.AllowedCommands = true := by
    unfold isCommandAllowed at hallowed
    cases hf : Fields command with
    | nil => simp [hf] at hallowed
    | cons tok rest =>
      simp only [hf, Except.ok.injEq] at hallowed
      exact ⟨tok, rest, rfl, hallowed⟩
  have hex := ShellExecutor.Execute_of_fields env params command tok rest hcmd hf
  simp only [hloop, if_true] at hex
  refine ⟨?_, ?_, ?_, ?_, ?_, ?_⟩
  · intro t ht
    have hr := hfits t ht
    simp only [effectiveTimeout, Bag.getFloat64, ht, intOfFloat64]
    rw [if_pos hr]
  · intro h
    simp [effectiveTimeout, Bag.getFloat64, h]
  · intro v hv hnum
    cases v <;> simp_all [effectiveTimeout, Bag.getFloat64]
  · rw [hex]
    split <;> simp_all
  · intro h spawn
    rw [hex]
    simp [h]
  · intro h
    rw [hex]
    simp [h]

/-- A timeout of 90.5 seconds under a limit of 60 is refused. -/
theorem timeout_limit_iff_witness :
    Bag.getString [("command", .str "ls -la"), ("timeout", .num ⟨181, -1⟩)] "command"
      = some "ls -la" ∧
    isCommandAllowed sampleShellEnv.cfg "ls -la" = .ok true ∧
    (∀ t, GoMap.get [("command", Value.str "ls -la"), ("timeout", .num ⟨181, -1⟩)] "timeout"
        = some (.num t) → -(2 : Int) ^ 63 ≤ t.trunc ∧ t.trunc < (2 : Int) ^ 63) ∧
    effectiveTimeout sampleShellEnv [("command", .str "ls -la"), ("timeout", .num ⟨181, -1⟩)]
      = 90 ∧
    ShellExecutor.Execute sampleShellEnv
        [("command", .str "ls -la"), ("timeout", .num ⟨181, -1⟩)]
      = .fail (.timeoutExceeds 60) :=
  have hfits : ∀ t,
      GoMap.get [("command", Value.str "ls -la"), ("timeout", .num ⟨181, -1⟩)] "timeout"
        = some (.num t) → -(2 : Int) ^ 63 ≤ t.trunc ∧ t.trunc < (2 : Int) ^ 63 := by
    intro t ht
    have h2 : t = ⟨181, -1⟩ := by
      simpa [GoMap.get, eq_comm] using ht
    subst h2
    decide
  ⟨by decide, rfl, hfits, by decide,
    (timeout_limit_iff sampleShellEnv [("command", .str "ls -la"), ("timeout", .num ⟨181, -1⟩)]
      "ls -la" (by decide) rfl hfits).2.2.2.1.2 (by decide)⟩

/-- C9, the claim as stated fails. A timeout supplied as the string `5` is not
coerced: the timeout is 30, and under a limit of 20 the request is refused
although 5 is within the limit. A timeout supplied as the number `2^70` is
above every limit, and where the out-of-range conversion gives the least
`int` the request is not refused. -/
theorem timeout_claim_counterexample :
    (Bag.getString [("command", .str "echo hi"), ("timeout", .str "5")] "timeout" = some "5" ∧
      isCommandAllowed (limitedShellEnv 20).cfg "echo hi" = .ok true ∧
      effectiveTimeout (limitedShellEnv 20) [("command", .str "echo hi"), ("timeout", .str "5")]
        = 30 ∧
      ShellExecutor.Execute (limitedShellEnv 20)
          [("command", .str "echo hi"), ("timeout", .str "5")]
        = .fail (.timeoutExceeds 20)) ∧
    (Bag.getFloat64 [("command", .str "echo hi"), ("timeout", .num ⟨1, 70⟩)] "timeout"
        = some ⟨1, 70⟩ ∧
      Float64.trunc ⟨1, 70⟩ = 2 ^ 70 ∧
      (2 : Int) ^ 70 > (limitedShellEnv 20).cfg.Tools.ShellExecutor.MaxTimeout ∧
      ShellExecutor.Execute (limitedShellEnv 20)
          [("command", .str "echo hi"), ("timeout", .num ⟨1, 70⟩)]
        = .ok { name := "echo", args := ["hi"], dir := "", timeout := -(2 : Int) ^ 63 }) :=
  ⟨⟨by decide, rfl, by decide, by decide⟩, ⟨by decide, by decide, by decide, by decide⟩⟩

/-! ## The path policy -/

/-- C10, the code at the failing input. A path below the allow-listed
directory whose first element there begins with two dots is inside that
directory, and `isPathAllowed` rejects it, because `isSubPath` tests the
relative path `..cache/notes.txt` for the characters `..` at its start. The
path of the claim that climbs out of the directory is rejected, and a path
inside it with ordinary names is accepted. -/
theorem isPathAllowed_rejects_inside_path :
    Abs (some "/srv/app") "/allowed/root/..cache/notes.txt"
      = some "/allowed/root/..cache/notes.txt" ∧
    Rel "/allowed/root" "/allowed/root/..cache/notes.txt" = some "..cache/notes.txt" ∧
    isPathAllowed (sampleConfig 2) (some "/srv/app") "/allowed/root/..cache/notes.txt" = false ∧
    resolvedElements (some "/srv/app") "/allowed/root/..cache/notes.txt"
      = some ["allowed", "root", "..cache", "notes.txt"] ∧
    resolvedElements (some "/srv/app") "/allowed/root" = some ["allowed", "root"] ∧
    specPathAllowed (sampleConfig 2) (some "/srv/app") "/allowed/root/..cache/notes.txt" = true ∧
    isPathAllowed (sampleConfig 2) (some "/srv/app") "/allowed/root/../../etc/passwd" = false ∧
    specPathAllowed (sampleConfig 2) (some "/srv/app") "/allowed/root/../../etc/passwd" = false ∧
    isPathAllowed (sampleConfig 2) (some "/srv/app") "/allowed/root/cache/notes.txt" = true := by
  decide
/-! ## The task store: delete, then get -/

namespace GoMap

variable {α : Type}

theorem get_delete_self (m : GoMap α) (k : String) : get (delete m k) k = none := by
  induction m with
  | nil => rfl
  | cons e m ih =>
    obtain ⟨k0, v0⟩ := e
    by_cases h0 : k0 = k
    · simp [delete, h0, ih]
    · simp [delete, get, h0, ih]

theorem get_delete_ne (m : GoMap α) (k k' : String) (h : k ≠ k') :
    get (delete m k) k' = get m k' := by
  induction m with
  | nil => rfl
  | cons e m ih =>
    obtain ⟨k0, v0⟩ := e
    by_cases h0 : k0 = k
    · subst h0
      simp [delete, get, h, ih]
    · by_cases h1 : k0 = k'
      · subst h1
        simp [delete, get, h0]
      · simp [delete, get, h0, h1, ih]

theorem delete_of_get_none (m : GoMap α) (k : String) (h : get m k = none) :
    delete m k = m := by
  induction m with
  | nil => rfl
  | cons e m ih =>
    obtain ⟨k0, v0⟩ := e
    by_cases h0 : k0 = k
    · simp [get, h0] at h
    · simp only [get, h0, if_false] at h
      simp [delete, h0, ih h]

/-- In a map, deleting a key that is present removes one entry. -/
theorem len_delete_of_get_some (m : GoMap α) (k : String) (v : α)
    (hmap : (keys m).Nodup) (h : get m k = some v) :
    len (delete m k) + 1 = len m := by
  induction m with
  | nil => simp [get] at h
  | cons e m ih =>
    obtain ⟨k0, v0⟩ := e
    simp only [keys, List.map_cons, List.nodup_cons] at hmap
    by_cases h0 : k0 = k
    · subst h0
      have hnone : get m k0 = none := (get_eq_none_iff m k0).2 hmap.1
      simp [delete, len, delete_of_get_none m k0 hnone]
    · simp only [get, h0, if_false] at h
      have := ih hmap.2 h
      simp only [len] at this
      simp [delete, len, h0, this]

theorem keys_delete (m : GoMap α) (k : String) :
    keys (delete m k) = (keys m).filter (fun k' => k' ≠ k) := by
  induction m with
  | nil => rfl
  | cons e m ih =>
    obtain ⟨k0, v0⟩ := e
    by_cases h0 : k0 = k
    · simp only [keys] at ih
      simp [delete, keys, h0, ih]
    · simp only [keys] at ih
      simp [delete, keys, h0, ih]

end GoMap

/-- C11. For every store that is a map (no identity twice) and every non-empty
`task_id`: `deleteTask` fails with the task-not-found error exactly when the
store holds no task of that identity. Otherwise it succeeds, the task is gone,
every other identity still has the task it had, the store holds one task
less, and a `getTask` of the same identity then fails with the task-not-found
error. -/
theorem delete_removes_exactly (env : SchedulerEnv) (s : Scheduler) (params : Bag)
    (taskID : String)
    (hid : params.getString "task_id" = some taskID) (hne : taskID ≠ "")
    (hmap : (GoMap.keys s.tasks).Nodup) :
    ((s.deleteTask env params).1 = .fail (.taskNotFound taskID) ↔
      GoMap.get s.tasks taskID = none) ∧
    ((∃ e, (s.deleteTask env params).1 = .fail e) ↔ GoMap.get s.tasks taskID = none) ∧
    (GoMap.get s.tasks taskID = none → (s.deleteTask env params).2 = s) ∧
    (∀ task, GoMap.get s.tasks taskID = some task →
      (s.deleteTask env params).1 = .ok (.deleted true ("Task " ++ taskID ++ " deleted")) ∧
      GoMap.get (s.deleteTask env params).2.tasks taskID = none ∧
      (∀ k, k ≠ taskID →
        GoMap.get (s.deleteTask env params).2.tasks k = GoMap.get s.tasks k) ∧
      GoMap.keys (s.deleteTask env params).2.tasks
        = (GoMap.keys s.tasks).filter (fun k => k ≠ taskID) ∧
      GoMap.len (s.deleteTask env params).2.tasks + 1 = GoMap.len s.tasks ∧
      ((s.deleteTask env params).2.getTask params).1 = .fail (.taskNotFound taskID)) := by
  cases hg : GoMap.get s.tasks taskID with
  | none =>
    have hdel : s.deleteTask env params = (.fail (.taskNotFound taskID), s) := by
      simp [Scheduler.deleteTask, hid, hne, hg]
    refine ⟨by simp [hdel], by simp [hdel], by simp [hdel], ?_⟩
    intro task h
    cases h
  | some task =>
    have hdel : s.deleteTask env params =
        (.ok (.deleted true ("Task " ++ taskID ++ " deleted")),
          { s with
            tasks := GoMap.delete s.tasks taskID
            notifications :=
              if env.cfg.Tools.Scheduler.EnableNotifications then
                s.notifications ++ [("task_deleted", task)]
              else s.notifications }) := by
      simp [Scheduler.deleteTask, hid, hne, hg]
    refine ⟨by simp [hdel], by simp [hdel], by simp, ?_⟩
    intro task' _
    rw [hdel]
    refine ⟨rfl, GoMap.get_delete_self _ _, ?_, GoMap.keys_delete _ _,
      GoMap.len_delete_of_get_some _ _ task hmap hg, ?_⟩
    · intro k hk
      exact GoMap.get_delete_ne _ _ _ (Ne.symm hk)
    · simp [Scheduler.getTask, hid, hne, GoMap.get_delete_self]

/-- Deleting `task_1` from a store holding it alone, then getting it. -/
theorem delete_removes_exactly_witness :
    Bag.getString [("task_id", .str "task_1")] "task_id" = some "task_1" ∧
    (GoMap.keys (sampleScheduler "title" "description").tasks).Nodup ∧
    GoMap.len ((sampleScheduler "title" "description").deleteTask (tickingEnv 2)
      [("task_id", .str "task_1")]).2.tasks + 1
      = GoMap.len (sampleScheduler "title" "description").tasks ∧
    (((sampleScheduler "title" "description").deleteTask (tickingEnv 2)
      [("task_id", .str "task_1")]).2.getTask [("task_id", .str "task_1")]).1
      = .fail (.taskNotFound "task_1") :=
  ⟨by decide, by decide,
    ((delete_removes_exactly (tickingEnv 2) (sampleScheduler "title" "description")
      [("task_id", .str "task_1")] "task_1" (by decide) (by decide) (by decide)).2.2.2
        (sampleTask "title" "description") (by decide)).2.2.2.2.1,
    ((delete_removes_exactly (tickingEnv 2) (sampleScheduler "title" "description")
      [("task_id", .str "task_1")] "task_1" (by decide) (by decide) (by decide)).2.2.2
        (sampleTask "title" "description") (by decide)).2.2.2.2.2⟩
/-! ## Stores are maps -/

namespace GoMap

variable {α : Type}

theorem mem_keys_set (m : GoMap α) (k x : String) (v : α) :
    x ∈ keys (set m k v) ↔ x = k ∨ x ∈ keys m := by
  induction m with
  | nil => simp [set, keys]
  | cons e m ih =>
    obtain ⟨k0, v0⟩ := e
    simp only [keys] at ih
    by_cases h0 : k0 = k
    · subst h0
      simp [set, keys]
    · simp only [set, h0, if_false, keys, List.map_cons, List.mem_cons, ih]
      tauto

theorem nodup_keys_set (m : GoMap α) (k : String) (v : α) (h : (keys m).Nodup) :
    (keys (set m k v)).Nodup := by
  induction m with
  | nil => simp [set, keys]
  | cons e m ih =>
    obtain ⟨k0, v0⟩ := e
    simp only [keys, List.map_cons, List.nodup_cons] at h
    by_cases h0 : k0 = k
    · subst h0
      simpa [set, keys] using h
    · have hmem := mem_keys_set m k k0 v
      simp only [keys] at hmem ih
      simp only [set, h0, if_false, keys, List.map_cons, List.nodup_cons, hmem]
      exact ⟨by tauto, ih h.2⟩

theorem nodup_keys_delete (m : GoMap α) (k : String) (h : (keys m).Nodup) :
    (keys (delete m k)).Nodup := by
  rw [keys_delete]
  exact h.filter _

end GoMap

theorem asResult_snd (r : Outcome SchedulerError Task × Scheduler) : (asResult r).2 = r.2 := by
  obtain ⟨o, s⟩ := r
  cases o <;> rfl

theorem asResult_fst_ok (r : Outcome SchedulerError Task × Scheduler) (t : Task)
    (h : r.1 = .ok t) : (asResult r).1 = .ok (.task t) := by
  obtain ⟨o, s⟩ := r
  cases o <;> simp_all [asResult]

/-- createTask is the capacity check followed by the rest of the function. -/
theorem createTask_eq_check_then_rest (env : SchedulerEnv) (s : Scheduler) (params : Bag) :
    s.createTask env params =
      if (GoMap.len s.tasks : Int) ≥ env.cfg.Tools.Scheduler.MaxTasks then
        (.fail (.maxTasks env.cfg.Tools.Scheduler.MaxTasks), s)
      else s.createChecked env params := rfl

/-- What an invocation can do to the map: nothing, one assignment, or one
`delete`. -/
theorem Execute_tasks (env : SchedulerEnv) (s : Scheduler) (params : Bag) :
    (s.Execute env params).2.tasks = s.tasks ∨
    (∃ k v, (s.Execute env params).2.tasks = GoMap.set s.tasks k v) ∨
    (∃ k, (s.Execute env params).2.tasks = GoMap.delete s.tasks k) := by
  unfold Scheduler.Execute
  split
  · exact Or.inl rfl
  · split_ifs
    · rw [asResult_snd, createTask_eq_check_then_rest]
      unfold Scheduler.createChecked Scheduler.insertTask
      repeat' split
      all_goals first | exact Or.inl rfl | exact Or.inr (Or.inl ⟨_, _, rfl⟩)
    · rw [asResult_snd]
      unfold Scheduler.updateTask Scheduler.finishUpdate
      repeat' split
      all_goals first | exact Or.inl rfl | exact Or.inr (Or.inl ⟨_, _, rfl⟩)
    · unfold Scheduler.deleteTask
      repeat' split
      all_goals first | exact Or.inl rfl | exact Or.inr (Or.inr ⟨_, rfl⟩)
    · exact Or.inl rfl
    · rw [asResult_snd]
      unfold Scheduler.getTask
      repeat' split
      all_goals exact Or.inl rfl
    · exact Or.inl rfl

/-- Every invocation of the scheduler leaves a store that is a map when it
started from one. -/
theorem Execute_keeps_map (env : SchedulerEnv) (s : Scheduler) (params : Bag)
    (h : (GoMap.keys s.tasks).Nodup) :
    (GoMap.keys (s.Execute env params).2.tasks).Nodup := by
  rcases Execute_tasks env s params with h1 | ⟨k, v, h1⟩ | ⟨k, h1⟩
  · rw [h1]; exact h
  · rw [h1]; exact GoMap.nodup_keys_set _ _ _ h
  · rw [h1]; exact GoMap.nodup_keys_delete _ _ h
/-! ## The ceiling when operations do not interleave -/

theorem GoMap.len_set_le {α : Type} (m : GoMap α) (k : String) (v : α) :
    GoMap.len (GoMap.set m k v) ≤ GoMap.len m + 1 := by
  cases h : GoMap.get m k with
  | none => rw [GoMap.len_set_of_get_none m k v h]
  | some v0 =>
    rw [GoMap.len_set_of_get_some m k v v0 h]
    omega

theorem GoMap.len_delete_le {α : Type} (m : GoMap α) (k : String) :
    GoMap.len (GoMap.delete m k) ≤ GoMap.len m := by
  induction m with
  | nil => simp [GoMap.delete]
  | cons e m ih =>
    obtain ⟨k0, v0⟩ := e
    simp only [GoMap.len] at ih
    by_cases h0 : k0 = k
    · simp only [GoMap.delete, h0, if_true, GoMap.len, List.length_cons]
      omega
    · simp only [GoMap.delete, h0, if_false, GoMap.len, List.length_cons]
      omega

theorem createChecked_len (env : SchedulerEnv) (s : Scheduler) (params : Bag) :
    GoMap.len (s.createChecked env params).2.tasks ≤ GoMap.len s.tasks + 1 := by
  have hset := fun (k : String) (v : Task) => GoMap.len_set_le s.tasks k v
  unfold Scheduler.createChecked Scheduler.insertTask
  repeat' split
  all_goals first | exact Nat.le_succ _ | exact hset _ _

theorem updateTask_len (env : SchedulerEnv) (s : Scheduler) (params : Bag) :
    GoMap.len (s.updateTask env params).2.tasks = GoMap.len s.tasks := by
  cases hid : params.getString "task_id" with
  | none => simp [Scheduler.updateTask, hid]
  | some taskID =>
    by_cases hne : taskID = ""
    · simp [Scheduler.updateTask, hid, hne]
    · cases hold : GoMap.get s.tasks taskID with
      | none => simp [Scheduler.updateTask, hid, hne, hold]
      | some old =>
        have hset := fun (v : Task) => GoMap.len_set_of_get_some s.tasks taskID v old hold
        simp only [Scheduler.updateTask, hid, hne, hold, if_false, Scheduler.finishUpdate]
        repeat' split
        all_goals exact hset _

theorem deleteTask_len (env : SchedulerEnv) (s : Scheduler) (params : Bag) :
    GoMap.len (s.deleteTask env params).2.tasks ≤ GoMap.len s.tasks := by
  have hdel := fun (k : String) => GoMap.len_delete_le s.tasks k
  unfold Scheduler.deleteTask
  repeat' split
  all_goals first | exact Nat.le_refl _ | exact hdel _

/-- Invocations that run one after another never take the store above the
ceiling: the capacity check and the insert see the same count. -/
theorem Execute_keeps_ceiling (env : SchedulerEnv) (s : Scheduler) (params : Bag)
    (h : (GoMap.len s.tasks : Int) ≤ env.cfg.Tools.Scheduler.MaxTasks) :
    (GoMap.len (s.Execute env params).2.tasks : Int) ≤ env.cfg.Tools.Scheduler.MaxTasks := by
  unfold Scheduler.Execute
  split
  · exact h
  · split_ifs
    · rw [asResult_snd, createTask_eq_check_then_rest]
      split
      · exact h
      · have := createChecked_len env s params
        omega
    · rw [asResult_snd, updateTask_len]
      exact h
    · have := deleteTask_len env s params
      omega
    · exact h
    · rw [asResult_snd]
      unfold Scheduler.getTask
      repeat' split
      all_goals exact h
    · exact h
/-! ## Operations as steps: agreement with the operations run whole -/

/-- A `createTask` whose two steps run with nothing in between returns what
`createTask` returns and leaves the scheduler `createTask` leaves. -/
theorem create_steps_alone (env : SchedulerEnv) (s : Scheduler) (params : Bag) :
    ((((Thread.create params).step env s).1.step env
        ((Thread.create params).step env s).2.1).1.result
      = some (asResult (s.createTask env params)).1) ∧
    (((Thread.create params).step env s).1.step env
        ((Thread.create params).step env s).2.1).2.1
      = (s.createTask env params).2 := by
  rw [createTask_eq_check_then_rest]
  by_cases hcap : (GoMap.len s.tasks : Int) ≥ env.cfg.Tools.Scheduler.MaxTasks
  · simp [Thread.step, hcap, Thread.result, asResult]
  · simp [Thread.step, hcap, Thread.result, asResult_snd]

theorem dispatched_append (es fs : List LockEvent) :
    dispatched (es ++ fs) = dispatched es ++ dispatched fs := by
  induction es with
  | nil => rfl
  | cons e es ih => cases e <;> simp [dispatched, ih]

theorem dispatched_writeEvents (params : Bag) : dispatched (writeEvents params) = [] := by
  unfold writeEvents
  rcases params.getString "title" with _ | title <;>
    rcases params.getString "description" with _ | desc <;>
    rcases params.getString "status" with _ | status <;>
    simp only [] <;> (try split_ifs) <;> rfl

/-- The notification goroutines a step starts are the notifications the step
adds to the scheduler. -/
theorem step_notifications (env : SchedulerEnv) (s : Scheduler) (th : Thread) :
    (th.step env s).2.1.notifications = s.notifications ++ dispatched (th.step env s).2.2 := by
  cases th with
  | create params =>
    simp only [Thread.step]
    split <;> simp [dispatched]
  | createChecked params =>
    simp only [Thread.step, Scheduler.createCheckedEvents]
    unfold Scheduler.createChecked Scheduler.insertTask
    repeat' split
    all_goals simp_all [dispatched]
  | update params =>
    simp only [Thread.step, Scheduler.updateEvents]
    unfold Scheduler.updateTask Scheduler.finishUpdate
    repeat' split
    all_goals simp_all [dispatched, dispatched_append, dispatched_writeEvents]
  | delete params =>
    simp only [Thread.step, Scheduler.deleteEvents]
    unfold Scheduler.deleteTask
    repeat' split
    all_goals simp_all [dispatched]
  | finished r => simp [Thread.step, dispatched]
/-! ## The ceiling under interleaved creates -/

/-- C12, the code at the failing interleaving. The ceiling is 1 and the store
is empty. Two `createTask` calls both make their capacity check under the
shared lock before either inserts: both pass, at count 0. Each then inserts
under the exclusive lock, where nothing checks the count again: the store
ends with 2 tasks, above the ceiling. When the second call starts after the
first has returned, it is refused and the store holds 1 task. -/
theorem interleaved_creates_exceed_ceiling :
    (tickingEnv 1).cfg.Tools.Scheduler.MaxTasks = 1 ∧
    (System.run (tickingEnv 1)
        ⟨NewScheduler, [.create [("title", .str "a"), ("description", .str "d")],
                        .create [("title", .str "b"), ("description", .str "e")]]⟩
        [0, 1]).threads.map Thread.phase = [.checked, .checked] ∧
    GoMap.len (System.run (tickingEnv 1)
        ⟨NewScheduler, [.create [("title", .str "a"), ("description", .str "d")],
                        .create [("title", .str "b"), ("description", .str "e")]]⟩
        [0, 1]).store.tasks = 0 ∧
    (System.run (tickingEnv 1)
        ⟨NewScheduler, [.create [("title", .str "a"), ("description", .str "d")],
                        .create [("title", .str "b"), ("description", .str "e")]]⟩
        [0, 1, 0, 1]).threads.map Thread.phase = [.finished, .finished] ∧
    GoMap.keys (System.run (tickingEnv 1)
        ⟨NewScheduler, [.create [("title", .str "a"), ("description", .str "d")],
                        .create [("title", .str "b"), ("description", .str "e")]]⟩
        [0, 1, 0, 1]).store.tasks
      = ["task_1700000000000000000", "task_1700000000000000003"] ∧
    GoMap.len (System.run (tickingEnv 1)
        ⟨NewScheduler, [.create [("title", .str "a"), ("description", .str "d")],
                        .create [("title", .str "b"), ("description", .str "e")]]⟩
        [0, 1, 0, 1]).store.tasks = 2 ∧
    GoMap.len (System.run (tickingEnv 1)
        ⟨NewScheduler, [.create [("title", .str "a"), ("description", .str "d")],
                        .create [("title", .str "b"), ("description", .str "e")]]⟩
        [0, 0, 1, 1]).store.tasks = 1 ∧
    (System.run (tickingEnv 1)
        ⟨NewScheduler, [.create [("title", .str "a"), ("description", .str "d")],
                        .create [("title", .str "b"), ("description", .str "e")]]⟩
        [0, 0, 1, 1]).threads.map Thread.result
      = [some (.ok (.task
            { ID := "task_1700000000000000000", Title := "a", Description := "d",
              DueTime := zeroTime, Status := "pending",
              CreatedAt := 1700000000000000001, UpdatedAt := 1700000000000000002 })),
         some (.fail (.maxTasks 1))] := by
  decide

/-! ## Where the notification is handed off -/

theorem dispatchOutsideLock_writeEvents (held : Bool) (params : Bag) (es : List LockEvent) :
    dispatchOutsideLock held (writeEvents params ++ es) = dispatchOutsideLock held es := by
  unfold writeEvents
  rcases params.getString "title" with _ | title <;>
    rcases params.getString "description" with _ | desc <;>
    rcases params.getString "status" with _ | status <;>
    simp only [] <;> (try split_ifs) <;> simp [dispatchOutsideLock]

/-- A `createTask` never starts its notification goroutine while it holds the
exclusive lock. -/
theorem create_dispatch_after_unlock (env : SchedulerEnv) (s : Scheduler) (params : Bag) :
    dispatchOutsideLock false (Thread.events env s (.create params)) = true := by
  simp only [Thread.events, Thread.step]
  split
  · simp [Thread.step, dispatchOutsideLock]
  · simp only [Thread.step, Scheduler.createCheckedEvents]
    split
    · split <;> simp [dispatchOutsideLock]
    · simp [dispatchOutsideLock]

/-- An `updateTask` that succeeds with notifications enabled starts its
notification goroutine while it holds the exclusive lock. -/
theorem update_dispatch_under_lock (env : SchedulerEnv) (s s' : Scheduler) (params : Bag)
    (new : Task)
    (hnotify : env.cfg.Tools.Scheduler.EnableNotifications = true)
    (hok : s.updateTask env params = (.ok new, s')) :
    dispatchOutsideLock false (Thread.events env s (.update params)) = false := by
  cases hid : params.getString "task_id" with
  | none => simp [Scheduler.updateTask, hid] at hok
  | some taskID =>
    by_cases hne : taskID = ""
    · simp [Scheduler.updateTask, hid, hne] at hok
    · cases hold : GoMap.get s.tasks taskID with
      | none => simp [Scheduler.updateTask, hid, hne, hold] at hok
      | some old =>
        cases hd : params.getString "due_time" with
        | none =>
          simp [Thread.events, Thread.step, Scheduler.updateEvents, hid, hne, hold, hd,
            hnotify, dispatchOutsideLock, dispatchOutsideLock_writeEvents]
        | some d =>
          cases ht : env.parse d with
          | none => simp [Scheduler.updateTask, hid, hne, hold, hd, ht] at hok
          | some t =>
            simp [Thread.events, Thread.step, Scheduler.updateEvents, hid, hne, hold, hd, ht,
              hnotify, dispatchOutsideLock, dispatchOutsideLock_writeEvents]

/-- A `deleteTask` that succeeds with notifications enabled starts its
notification goroutine while it holds the exclusive lock. -/
theorem delete_dispatch_under_lock (env : SchedulerEnv) (s s' : Scheduler) (params : Bag)
    (r : SchedulerResult)
    (hnotify : env.cfg.Tools.Scheduler.EnableNotifications = true)
    (hok : s.deleteTask env params = (.ok r, s')) :
    dispatchOutsideLock false (Thread.events env s (.delete params)) = false := by
  cases hid : params.getString "task_id" with
  | none => simp [Scheduler.deleteTask, hid] at hok
  | some taskID =>
    by_cases hne : taskID = ""
    · simp [Scheduler.deleteTask, hid, hne] at hok
    · cases hold : GoMap.get s.tasks taskID with
      | none => simp [Scheduler.deleteTask, hid, hne, hold] at hok
      | some old =>
        simp [Thread.events, Thread.step, Scheduler.deleteEvents, hid, hne, hold, hnotify,
          dispatchOutsideLock]

/-- C13, the code at the failing inputs. With notifications enabled, an
update of an existing task runs `Lock`, its writes, the hand-off of the
notification, and only then the deferred `Unlock`; a delete of an existing
task does the same. In both the notification is handed off between the
acquisition and the release of the exclusive lock. A create releases the lock
before it hands off its notification. -/
theorem update_and_delete_dispatch_under_lock :
    (notifyingEnv 2).cfg.Tools.Scheduler.EnableNotifications = true ∧
    Thread.events (notifyingEnv 2) (sampleScheduler "title" "description")
        (.update [("task_id", .str "task_1"), ("status", .str "completed")])
      = [.lock, .mutate, .mutate,
         .dispatch "task_updated"
           { sampleTask "title" "description" with
             Status := "completed", UpdatedAt := 1700000000000000003 },
         .unlock] ∧
    dispatchOutsideLock false
      (Thread.events (notifyingEnv 2) (sampleScheduler "title" "description")
        (.update [("task_id", .str "task_1"), ("status", .str "completed")])) = false ∧
    Thread.events (notifyingEnv 2) (sampleScheduler "title" "description")
        (.delete [("task_id", .str "task_1")])
      = [.lock, .mutate, .dispatch "task_deleted" (sampleTask "title" "description"),
         .unlock] ∧
    dispatchOutsideLock false
      (Thread.events (notifyingEnv 2) (sampleScheduler "title" "description")
        (.delete [("task_id", .str "task_1")])) = false ∧
    Thread.events (notifyingEnv 2) (sampleScheduler "title" "description")
        (.create [("title", .str "b"), ("description", .str "e")])
      = [.rlock, .runlock, .lock, .mutate, .unlock,
         .dispatch "task_created"
           { ID := "task_1700000000000000003", Title := "b", Description := "e",
             DueTime := zeroTime, Status := "pending",
             CreatedAt := 1700000000000000004, UpdatedAt := 1700000000000000005 }] ∧
    dispatchOutsideLock false
      (Thread.events (notifyingEnv 2) (sampleScheduler "title" "description")
        (.create [("title", .str "b"), ("description", .str "e")])) = true := by
  decide

end Plugintools
